import Mathlib

/-!
# Verification of the hikari state registry

Shallow embedding of `src/hikari/state/state_registry_impl.py` and
`src/hikari/state/models/channels.py`.

Modelling conventions:
* Python dictionaries become association lists (`List (Nat × α)`) with
  Python insertion-order semantics: assignment to an existing key updates
  in place, assignment to a fresh key appends at the end, `del` removes
  the entry.
* The weak-value dictionaries (`_guild_channels`, `_emojis`, `_users`)
  are modelled as explicit indices; garbage collection is not modelled,
  so an entry stays in the index until explicitly removed.
* Python objects shared between collections (channels, messages,
  reactions, emojis) live in explicit heaps keyed by their identifier
  (for reactions, by an allocation counter `next_rid`, since reactions
  have no snowflake id).  A collection holds keys into the heap, exactly
  as a Python dict holds references into the runtime heap.
* String-valued payload fields (names, topics, icons) are modelled as
  `Nat` tokens; no verified property inspects their text.
* Fallible operations return `Except RegErr α` together with the state
  reached when the error escaped, so that the registry contents at the
  moment an exception propagates are observable.
* `data_structures.LRUDict` and the model modules `guilds.py`,
  `members.py`, `roles.py`, `emojis.py`, `messages.py`, `reactions.py`,
  `users.py` are not part of the source tree; the definitions standing
  in for them are modelled from the specification and say so in their
  doc strings.
-/

namespace Hikari

/-- Association-list lookup, first binding wins (Python dict lookup;
keys are unique in every list we build). -/
def lookupA {α : Type} (k : Nat) : List (Nat × α) → Option α
  | [] => none
  | (k', v) :: rest => if k' = k then some v else lookupA k rest

/-- Update the binding of `k` in place, keeping position (Python
`d[k] = v` when `k` is already present). -/
def updateA {α : Type} (k : Nat) (f : α → α) : List (Nat × α) → List (Nat × α)
  | [] => []
  | (k', v) :: rest => if k' = k then (k', f v) :: rest else (k', v) :: updateA k f rest

/-- Python `d[k] = v`: update in place when present, append when fresh. -/
def insertA {α : Type} (k : Nat) (v : α) (l : List (Nat × α)) : List (Nat × α) :=
  if (lookupA k l).isSome then updateA k (fun _ => v) l else l ++ [(k, v)]

/-- Python `del d[k]` restricted to the first binding (keys are unique). -/
def removeA {α : Type} (k : Nat) : List (Nat × α) → List (Nat × α)
  | [] => []
  | (k', v) :: rest => if k' = k then rest else (k', v) :: removeA k rest

/-- Modelled from the spec: `data_structures.LRUDict` (not under `src/`).
The recency list keeps the most recently used key first; §4.2 of the spec:
`put` inserts or refreshes recency and evicts the least-recently-used
entry if capacity is exceeded.  Values live in the accompanying heap. -/
def lruPut (cap : Nat) (k : Nat) (l : List Nat) : List Nat :=
  (k :: l.erase k).take cap

/-- Modelled from the spec: `LRUDict` lookup refreshes recency on a hit
and leaves the structure unchanged on a miss (§4.2). -/
def lruRefresh (k : Nat) (l : List Nat) : List Nat :=
  if k ∈ l then k :: l.erase k else l

/-- Registry errors.  `invalidChannelType` models the
`TypeError("Invalid channel type ...")` raised by
`channels.parse_channel` (the spec's `InvalidPayload` class);
`keyError` and `attributeError` model the uncaught Python exceptions of
the same names. -/
inductive RegErr
  | invalidChannelType
  | keyError
  | attributeError
deriving DecidableEq, Repr

/-- Modelled from the spec: emoji (`models/emojis.py` is not under
`src/`).  An emoji has an optional snowflake id (none for unicode
emoji, §3: "optional guild_id (null = non-custom)"), a name token and
an optional owning guild id. -/
structure Emoji where
  eid : Option Nat
  name : Nat
  guild_id : Option Nat
deriving DecidableEq, Repr

/-- Modelled from the spec: reaction (`models/reactions.py` is not under
`src/`): a count, the emoji, and the back-reference to the owning
message (§3). -/
structure Reaction where
  count : Int
  emoji : Emoji
  message_id : Nat
deriving DecidableEq, Repr

/-- Modelled from the spec: message (`models/messages.py` is not under
`src/`): id, channel reference, list of reactions (§3).  The reaction
list holds keys into the reaction heap; it starts empty on
construction (the spec does not describe reaction ingestion at message
parse time). -/
structure Message where
  id : Nat
  channel_id : Nat
  reactions : List Nat
deriving DecidableEq, Repr

/-- Modelled from the spec: role (`models/roles.py` is not under
`src/`): id and guild_id (§3). -/
structure Role where
  id : Nat
  guild_id : Nat
deriving DecidableEq, Repr

/-- Modelled from the spec: member (`models/members.py` is not under
`src/`): a role-reference list (references into the owning guild's role
collection, hence role ids) and a nickname (§3). -/
structure Member where
  roles : List Nat
  nick : Option Nat
deriving DecidableEq, Repr

/-- Modelled from the spec: guild (`models/guilds.py` is not under
`src/`): id, unavailability flag and the owned child collections (§3).
`channels` holds channel ids (keys into the channel heap); roles,
members and emoji-ids are owned here. -/
structure Guild where
  id : Nat
  unavailable : Bool
  channels : List Nat
  roles : List (Nat × Role)
  members : List (Nat × Member)
  emojis : List Nat
deriving DecidableEq, Repr

/-- Tagged-variant channel model of the class hierarchy in
`models/channels.py` (the spec's §9 reimplementation note).  `kind` is
the integer `type` class variable (0 guild-text, 1 DM, 2 guild-voice,
3 group-DM, 4 guild-category, 5 guild-news, 6 guild-store); the union
of the per-class fields is carried as optional fields. -/
structure Channel where
  id : Nat
  kind : Nat
  guild_id : Option Nat
  last_message_id : Option Nat
  name : Option Nat
  position : Option Nat
  parent_id : Option Nat
  permission_overwrites : List Nat
  nsfw : Bool
  topic : Option Nat
  rate_limit_per_user : Nat
  recipients : List Nat
  icon_hash : Option Nat
  owner_id : Option Nat
  owner_application_id : Option Nat
  bitrate : Option Nat
  user_limit : Option Nat
deriving DecidableEq, Repr

/-- Modelled from the spec: plain user (`models/users.py` is not under
`src/`): only the identifier is relevant to the verified claims (§3:
"User: id"). -/
structure User where
  id : Nat
deriving DecidableEq, Repr

/-- Modelled from the spec: the bot user singleton (`models/users.py`
is not under `src/`).  `birth` is a ghost creation stamp used to state
that the instance is never replaced; `update_state` refreshes
non-identifier fields only (§4.4: "Update never changes identifier"). -/
structure BotUser where
  id : Nat
  birth : Nat
deriving DecidableEq, Repr

/-- Payload for `parse_user` / `parse_bot_user`.  `has_mfa_enabled` and
`has_verified` model the *presence* of the `"mfa_enabled"` /
`"verified"` keys (the code tests `"mfa_enabled" in user_payload`). -/
structure UserPayload where
  id : Nat
  has_mfa_enabled : Bool
  has_verified : Bool
deriving DecidableEq, Repr

/-- Payload for `parse_channel` and the channel constructors; optional
fields model `payload.get(...)`, the always-read fields (`id`) are
plain.  Overwrite payloads are opaque tokens. -/
structure ChannelPayload where
  id : Nat
  type : Option Nat
  guild_id : Option Nat
  name : Option Nat
  position : Option Nat
  parent_id : Option Nat
  permission_overwrites : List Nat
  nsfw : Option Bool
  topic : Option Nat
  rate_limit_per_user : Option Nat
  last_message_id : Option Nat
  recipients : List UserPayload
  icon : Option Nat
  owner_id : Option Nat
  application_id : Option Nat
  bitrate : Option Nat
  user_limit : Option Nat
deriving DecidableEq, Repr

/-- Payload for `parse_guild`. -/
structure GuildPayload where
  id : Nat
  unavailable : Option Bool
deriving DecidableEq, Repr

/-- Payload for `parse_member`: the user id, the payload role ids and
the nickname. -/
structure MemberPayload where
  user_id : Nat
  roles : List Nat
  nick : Option Nat
deriving DecidableEq, Repr

/-- Payload for `parse_message`. -/
structure MessagePayload where
  id : Nat
  channel_id : Nat
deriving DecidableEq, Repr

/-- Payload for `parse_emoji` (the emoji sub-payload of a reaction). -/
structure EmojiPayload where
  id : Option Nat
  name : Nat
deriving DecidableEq, Repr

/-- Payload for `parse_reaction`. -/
structure ReactionPayload where
  message_id : Nat
  count : Int
  emoji : EmojiPayload
deriving DecidableEq, Repr

/-- The registry state: the fields of `StateRegistryImpl.__init__`
(`src/hikari/state/state_registry_impl.py:68-84`) plus the explicit
heaps and ghost fields demanded by the modelling conventions.
`_dm_channels` and `_message_cache` are LRU recency lists of keys with
their capacities; `_guild_channels`, `_emojis` and `_users` are the
weak indices; `_user` is the bot user singleton; `bot_users_created`
is a ghost counter of `BotUser` constructions. -/
structure RegState where
  _dm_channels : List Nat
  dm_cap : Nat
  _emojis : List Nat
  _guilds : List (Nat × Guild)
  _guild_channels : List Nat
  _users : List (Nat × User)
  _message_cache : List Nat
  msg_cap : Nat
  _user : Option BotUser
  channel_heap : List (Nat × Channel)
  emoji_heap : List (Nat × Emoji)
  message_heap : List (Nat × Message)
  reaction_heap : List (Nat × Reaction)
  next_rid : Nat
  bot_users_created : Nat
deriving DecidableEq, Repr

/-- `StateRegistryImpl.__init__(message_cache_size, user_dm_channel_size)`:
all collections empty, no bot user. -/
def initState (message_cache_size : Nat) (user_dm_channel_size : Nat) : RegState :=
  { _dm_channels := []
    dm_cap := user_dm_channel_size
    _emojis := []
    _guilds := []
    _guild_channels := []
    _users := []
    _message_cache := []
    msg_cap := message_cache_size
    _user := none
    channel_heap := []
    emoji_heap := []
    message_heap := []
    reaction_heap := []
    next_rid := 0
    bot_users_created := 0 }

/-- `Channel._channel_implementations` in `models/channels.py`: the
discriminant values registered by `__init_subclass__` (GuildTextChannel 0,
DMChannel 1, GuildVoiceChannel 2, GroupDMChannel 3, GuildCategory 4,
GuildNewsChannel 5, GuildStoreChannel 6). -/
def channel_implementations : List Nat := [0, 1, 2, 3, 4, 5, 6]

/-- `channels.is_channel_type_dm` (`models/channels.py:367-374`): true
exactly for the registered classes with `is_dm = True` (types 1 and 3);
an unrecognised type yields `False`. -/
def is_channel_type_dm (channel_type : Option Nat) : Bool :=
  channel_type == some 1 || channel_type == some 3

/-- Modelled from the spec: emoji equality is "by emoji identity"
(§4.4 Reaction; `Emoji.__eq__` lives in the missing `models/emojis.py`):
custom emoji compare by id, unicode emoji by name. -/
def emojiMatch (a b : Emoji) : Bool :=
  match a.eid, b.eid with
  | some i, some j => i == j
  | none, none => a.name == b.name
  | _, _ => false

/-- `StateRegistryImpl.parse_bot_user` (lines 217-223): update the
existing singleton in place, or create it once.  Returns the bot user's
id as the handle.  `BotUser.update_state` refreshes only fields outside
the model (spec §4.4: update never changes the identifier), so the
update branch leaves the modelled state unchanged. -/
def parse_bot_user (s : RegState) (p : UserPayload) : Nat × RegState :=
  match s._user with
  | some u => (u.id, s)
  | none =>
      let u : BotUser := { id := p.id, birth := s.bot_users_created }
      (u.id, { s with _user := some u, bot_users_created := s.bot_users_created + 1 })

/-- The routing guard of `StateRegistryImpl.parse_user` (line 369):
`self._user and user_id == self._user.id or "mfa_enabled" in
user_payload or "verified" in user_payload`. -/
def isBotUserPayload (s : RegState) (p : UserPayload) : Bool :=
  (match s._user with | some u => p.id == u.id | none => false)
    || p.has_mfa_enabled || p.has_verified

/-- `StateRegistryImpl.parse_user` (lines 363-382).  After the routing
guard fails, `get_user_by_id`'s bot-user branch cannot fire, so the
lookup is just the weak user index; `User.update_state` touches no
modelled field. -/
def parse_user (s : RegState) (p : UserPayload) : Nat × RegState :=
  if isBotUserPayload s p then parse_bot_user s p
  else
    match lookupA p.id s._users with
    | none => (p.id, { s with _users := insertA p.id { id := p.id } s._users })
    | some u => (u.id, s)

/-- `StateRegistryImpl.parse_emoji` (lines 255-274) with
`emojis.parse_emoji` and `GuildEmoji.update_state` modelled from the
spec (`models/emojis.py` is not under `src/`): a payload with an id and
an owning guild yields a guild emoji, entered into the guild's emoji
collection and the weak emoji index; without a guild the emoji is
transient and never indexed (§4.4).  In the branch where a guild emoji's
guild is not cached the Python code would raise `AttributeError` on
`guild_obj.emojis`; that branch is unreachable from the modelled
operations (the reaction path always passes no guild) and is modelled
as returning the transient emoji. -/
def parse_emoji (s : RegState) (p : EmojiPayload) (guild_id : Option Nat) : Emoji × RegState :=
  match p.id with
  | none => ({ eid := none, name := p.name, guild_id := guild_id }, s)
  | some eid =>
      match (if eid ∈ s._emojis then lookupA eid s.emoji_heap else none) with
      | some ex =>
          let ex' := { ex with name := p.name }
          (ex', { s with emoji_heap := insertA eid ex' s.emoji_heap })
      | none =>
          let newE : Emoji := { eid := some eid, name := p.name, guild_id := guild_id }
          match guild_id with
          | some gid =>
              match lookupA gid s._guilds with
              | some _ =>
                  (newE, { s with
                    _guilds := updateA gid (fun g0 => { g0 with emojis :=
                      if eid ∈ g0.emojis then g0.emojis else g0.emojis ++ [eid] }) s._guilds,
                    _emojis := if eid ∈ s._emojis then s._emojis else s._emojis ++ [eid],
                    emoji_heap := insertA eid newE s.emoji_heap })
              | none => (newE, s)
          | none => (newE, s)

/-- The recipients list comprehension of `DMChannel.update_state`
(`models/channels.py:231`): parse each user payload through the
registry, collecting the user ids. -/
def parseRecipients : RegState → List UserPayload → List Nat × RegState
  | s, [] => ([], s)
  | s, u :: rest =>
      let (uid, s1) := parse_user s u
      let (ids, s2) := parseRecipients s1 rest
      (uid :: ids, s2)

/-- `GuildChannel.update_state` (`models/channels.py:143-154`):
position, permission overwrites, name, parent id.  `position` and
`name` are required payload reads in Python; the payload model carries
them as options stored as-is. -/
def guildChannelUpdateState (ch : Channel) (p : ChannelPayload) : Channel :=
  { ch with position := p.position
            permission_overwrites := p.permission_overwrites
            name := p.name
            parent_id := p.parent_id }

/-- `DMChannel.update_state` (`models/channels.py:228-231`): the
`Channel.update_state` super call is abstract (a no-op), then the last
message id and the recipients. -/
def dmChannelUpdateState (s : RegState) (ch : Channel) (p : ChannelPayload) : Channel × RegState :=
  let (rids, s1) := parseRecipients s p.recipients
  ({ ch with last_message_id := p.last_message_id, recipients := rids }, s1)

/-- The `update_state` dispatch over the channel classes of
`models/channels.py`, keyed by the stored kind tag: GuildTextChannel
(197-202), DMChannel (228-231), GuildVoiceChannel (257-260,
`payload.get(...) or None` collapses a zero to absence), GroupDMChannel
(297-302), GuildCategory / GuildStoreChannel (GuildChannel only),
GuildNewsChannel (346-350). -/
def channelUpdateState (s : RegState) (ch : Channel) (p : ChannelPayload) : Channel × RegState :=
  match ch.kind with
  | 0 => ({ guildChannelUpdateState ch p with
            nsfw := p.nsfw.getD false
            topic := p.topic
            rate_limit_per_user := p.rate_limit_per_user.getD 0
            last_message_id := p.last_message_id }, s)
  | 1 => dmChannelUpdateState s ch p
  | 2 => ({ guildChannelUpdateState ch p with
            bitrate := p.bitrate.bind (fun n => if n = 0 then none else some n)
            user_limit := p.user_limit.bind (fun n => if n = 0 then none else some n) }, s)
  | 3 =>
      let (ch1, s1) := dmChannelUpdateState s ch p
      ({ ch1 with icon_hash := p.icon
                  name := p.name
                  owner_application_id := p.application_id
                  owner_id := p.owner_id }, s1)
  | 4 => (guildChannelUpdateState ch p, s)
  | 5 => ({ guildChannelUpdateState ch p with
            nsfw := p.nsfw.getD false
            topic := p.topic
            last_message_id := p.last_message_id }, s)
  | 6 => (guildChannelUpdateState ch p, s)
  | _ => (ch, s)

/-- A freshly constructed channel before `update_state` runs
(`Channel.__init__` sets the id, `GuildChannel.__init__` the guild id;
every other slot is unset and modelled by its default). -/
def blankChannel (cid : Nat) (kind : Nat) (guild_id : Option Nat) : Channel :=
  { id := cid, kind := kind, guild_id := guild_id, last_message_id := none, name := none,
    position := none, parent_id := none, permission_overwrites := [], nsfw := false,
    topic := none, rate_limit_per_user := 0, recipients := [], icon_hash := none,
    owner_id := none, owner_application_id := none, bitrate := none, user_limit := none }

/-- The module-level `channels.parse_channel`
(`models/channels.py:377-402`): unknown or missing discriminants raise
`TypeError("Invalid channel type ...")`; known discriminants dispatch
to the class constructor — guild-kind constructors require
`payload["guild_id"]` (a `KeyError` if absent), then `update_state`
runs (which for DM kinds parses the recipients through the registry). -/
def channelsParseChannel (s : RegState) (p : ChannelPayload) : Except RegErr Channel × RegState :=
  match p.type with
  | some t =>
      if t ∈ channel_implementations then
        if is_channel_type_dm (some t) then
          let (ch, s1) := channelUpdateState s (blankChannel p.id t none) p
          (Except.ok ch, s1)
        else
          match p.guild_id with
          | some gid =>
              let (ch, s1) := channelUpdateState s (blankChannel p.id t (some gid)) p
              (Except.ok ch, s1)
          | none => (Except.error RegErr.keyError, s)
      else (Except.error RegErr.invalidChannelType, s)
  | none => (Except.error RegErr.invalidChannelType, s)

/-- `StateRegistryImpl.get_channel_by_id` (lines 189-190):
`self._guild_channels.get(channel_id) or self._dm_channels.get(channel_id)`.
A hit on the bounded DM index refreshes its recency. -/
def get_channel_by_id (s : RegState) (channel_id : Nat) : Option Channel × RegState :=
  match (if channel_id ∈ s._guild_channels then lookupA channel_id s.channel_heap else none) with
  | some ch => (some ch, s)
  | none =>
      if channel_id ∈ s._dm_channels then
        match lookupA channel_id s.channel_heap with
        | some ch => (some ch, { s with _dm_channels := lruRefresh channel_id s._dm_channels })
        | none => (none, s)
      else (none, s)

/-- Lines 231-232 of `parse_channel`: when a guild object is passed,
its id is written into the payload before parsing. -/
def withGuildId (p0 : ChannelPayload) : Option Nat → ChannelPayload
  | some gid => { p0 with guild_id := some gid }
  | none => p0

/-- `StateRegistryImpl.parse_channel` (lines 225-244).  An existing
channel is updated in place; a fresh payload is constructed and routed:
DM kinds into the bounded DM index, guild kinds first into the flat
weak index (line 241) and only then into
`channel_obj.guild.channels` (line 242) — if the guild is not cached,
`channel_obj.guild` is `None` and the attribute access raises with the
flat-index insertion already performed. -/
def parse_channel (s : RegState) (p0 : ChannelPayload) (guild_obj : Option Nat) :
    Except RegErr Nat × RegState :=
  let channel_id := p0.id
  let (found, s1) := get_channel_by_id s channel_id
  let p := withGuildId p0 guild_obj
  match found with
  | some ch =>
      let (ch', s2) := channelUpdateState s1 ch p
      (Except.ok channel_id, { s2 with channel_heap := insertA channel_id ch' s2.channel_heap })
  | none =>
      match channelsParseChannel s1 p with
      | (Except.error e, s2) => (Except.error e, s2)
      | (Except.ok ch, s2) =>
          if is_channel_type_dm p.type then
            (Except.ok channel_id,
             { s2 with _dm_channels := lruPut s2.dm_cap channel_id s2._dm_channels
                       channel_heap := insertA channel_id ch s2.channel_heap })
          else
            let s3 := { s2 with
                        _guild_channels :=
                          if channel_id ∈ s2._guild_channels then s2._guild_channels
                          else s2._guild_channels ++ [channel_id]
                        channel_heap := insertA channel_id ch s2.channel_heap }
            match ch.guild_id with
            | none => (Except.error RegErr.attributeError, s3)
            | some gid =>
                match lookupA gid s3._guilds with
                | none => (Except.error RegErr.attributeError, s3)
                | some _ =>
                    (Except.ok channel_id,
                     { s3 with _guilds := updateA gid (fun g0 => { g0 with channels :=
                         if channel_id ∈ g0.channels then g0.channels
                         else g0.channels ++ [channel_id] }) s3._guilds })

/-- `StateRegistryImpl.parse_guild` (lines 276-292).  An unavailable
snapshot marks the cached guild unavailable in place; otherwise
`Guild.update_state` runs (modelled from the spec: in-place update of
the availability flag, child collections retained — `models/guilds.py`
is not under `src/`).  A fresh guild is created with empty child
collections (modelled from the spec: construction-time child parsing is
not described). -/
def parse_guild (s : RegState) (p : GuildPayload) : Nat × RegState :=
  let guild_id := p.id
  let unavailable := p.unavailable.getD false
  match lookupA guild_id s._guilds with
  | some _ =>
      (guild_id,
       { s with _guilds := updateA guild_id (fun g => { g with unavailable := unavailable }) s._guilds })
  | none =>
      (guild_id,
       { s with _guilds := s._guilds ++
           [(guild_id, { id := guild_id, unavailable := unavailable,
                         channels := [], roles := [], members := [], emojis := [] })] })

/-- `parse_member`'s role resolution (line 300): each payload role id
through `get_role_by_id`.  Modelled from the spec: unresolvable ids are
dropped (`Member.update_state` lives in the missing `models/members.py`;
the spec says the update replaces the role-reference list). -/
def resolveRoles (g : Guild) (role_ids : List Nat) : List Nat :=
  role_ids.filter (fun rid => (lookupA rid g.roles).isSome)

/-- `StateRegistryImpl.parse_member` (lines 294-307).  The caller
passes a guild object; a guild absent from the registry is a detached
object whose mutation is unobservable, modelled as a no-op. -/
def parse_member (s : RegState) (p : MemberPayload) (guild_id : Nat) : RegState :=
  match lookupA guild_id s._guilds with
  | none => s
  | some g =>
      let member_id := p.user_id
      match lookupA member_id g.members with
      | some _ =>
          { s with _guilds := updateA guild_id (fun g0 => { g0 with
              members := updateA member_id
                (fun m => { m with roles := resolveRoles g p.roles, nick := p.nick }) g0.members }) s._guilds }
      | none =>
          { s with _guilds := updateA guild_id (fun g0 => { g0 with
              members := g0.members ++
                [(member_id, { roles := resolveRoles g p.roles, nick := p.nick })] }) s._guilds }

/-- `StateRegistryImpl.get_message_by_id` (lines 203-204): a bounded
cache lookup, refreshing recency on a hit. -/
def get_message_by_id (s : RegState) (message_id : Nat) : Option Message × RegState :=
  if message_id ∈ s._message_cache then
    match lookupA message_id s.message_heap with
    | some m => (some m, { s with _message_cache := lruRefresh message_id s._message_cache })
    | none => (none, s)
  else (none, s)

/-- `StateRegistryImpl.parse_message` (lines 309-323).  If the channel
does not resolve, `None` is returned with nothing cached.  Otherwise a
fresh message is constructed (modelled from the spec: `messages.Message`
is not under `src/`; it holds id, channel id and an initially empty
reaction list, and its `channel` property resolves through the
registry), the resolved channel's `last_message_id` is set to the new
message id, and the message is inserted into the bounded cache. -/
def parse_message (s : RegState) (p : MessagePayload) : Option Nat × RegState :=
  let message_id := p.id
  let channel_id := p.channel_id
  let (chOpt, s1) := get_channel_by_id s channel_id
  match chOpt with
  | none => (none, s1)
  | some _ =>
      let msg : Message := { id := message_id, channel_id := channel_id, reactions := [] }
      let (chOpt2, s2) := get_channel_by_id s1 channel_id
      let s3 :=
        match chOpt2 with
        | some ch => { s2 with channel_heap := (insertA channel_id
            { ch with last_message_id := some message_id } s2.channel_heap) }
        | none => s2
      (some message_id,
       { s3 with _message_cache := lruPut s3.msg_cap message_id s3._message_cache
                 message_heap := insertA message_id msg s3.message_heap })

/-- The reaction-matching loop shared by the reaction operations: the
first reaction in the message's list whose emoji equals the given one
(a stale key missing from the heap cannot arise in Python and is
skipped). -/
def findMatchingRid (heap : List (Nat × Reaction)) (e : Emoji) : List Nat → Option Nat
  | [] => none
  | rid :: rest =>
      match lookupA rid heap with
      | some r => if emojiMatch r.emoji e then some rid else findMatchingRid heap e rest
      | none => findMatchingRid heap e rest

/-- The message object a reaction operation is invoked on.  The Python
operations receive the object itself; the operation language addresses
it through the message cache (without touching recency, since no cache
method is called). -/
def cachedMessage (s : RegState) (mid : Nat) : Option Message :=
  if mid ∈ s._message_cache then lookupA mid s.message_heap else none

/-- `StateRegistryImpl.increment_reaction_count` (lines 94-104): bump
the first matching reaction's count, or append a fresh reaction with
count 1.  Returns the reaction's heap key. -/
def increment_reaction_count (s : RegState) (mid : Nat) (e : Emoji) : Option Nat × RegState :=
  match cachedMessage s mid with
  | none => (none, s)
  | some m =>
      match findMatchingRid s.reaction_heap e m.reactions with
      | some rid =>
          (some rid,
           { s with reaction_heap := updateA rid (fun r => { r with count := r.count + 1 }) s.reaction_heap })
      | none =>
          let rid := s.next_rid
          (some rid,
           { s with
             reaction_heap := insertA rid { count := 1, emoji := e, message_id := mid } s.reaction_heap
             message_heap := updateA mid (fun m0 => { m0 with reactions := m0.reactions ++ [rid] }) s.message_heap
             next_rid := rid + 1 })

/-- `StateRegistryImpl.decrement_reaction_count` (lines 106-121):
decrement the first matching reaction's count; when the count reaches
exactly zero the reaction is removed from the message's list (its heap
entry keeps the zero, like the Python object a caller may still hold);
with no match, `None`. -/
def decrement_reaction_count (s : RegState) (mid : Nat) (e : Emoji) : Option Nat × RegState :=
  match cachedMessage s mid with
  | none => (none, s)
  | some m =>
      match findMatchingRid s.reaction_heap e m.reactions with
      | none => (none, s)
      | some rid =>
          let heap1 := updateA rid (fun r => { r with count := r.count - 1 }) s.reaction_heap
          let removed := match lookupA rid heap1 with
                         | some r => r.count == 0
                         | none => false
          (some rid,
           { s with reaction_heap := heap1
                    message_heap :=
                      if removed then
                        updateA mid (fun m0 => { m0 with reactions := m0.reactions.erase rid }) s.message_heap
                      else s.message_heap })

/-- `StateRegistryImpl.delete_reaction` (lines 156-165): the user
parameter is ignored and the `reaction_obj.message.id ==
reaction_obj.message.id` conjunct is identically true, so the first
reaction matching the emoji is removed from the list and its count set
to zero (so an external handle observes zero). -/
def delete_reaction (s : RegState) (mid : Nat) (e : Emoji) : RegState :=
  match cachedMessage s mid with
  | none => s
  | some m =>
      match findMatchingRid s.reaction_heap e m.reactions with
      | none => s
      | some rid =>
          { s with
            message_heap := updateA mid (fun m0 => { m0 with reactions := m0.reactions.erase rid }) s.message_heap
            reaction_heap := updateA rid (fun r => { r with count := 0 }) s.reaction_heap }

/-- `StateRegistryImpl.delete_all_reactions` (lines 167-173): zero
every reaction's count, then clear the list. -/
def delete_all_reactions (s : RegState) (mid : Nat) : RegState :=
  match cachedMessage s mid with
  | none => s
  | some m =>
      { s with
        reaction_heap := m.reactions.foldl
          (fun h rid => updateA rid (fun r => { r with count := 0 }) h) s.reaction_heap
        message_heap := updateA mid (fun m0 => { m0 with reactions := [] }) s.message_heap }

/-- `StateRegistryImpl.parse_reaction` (lines 330-350): look up the
message (refreshing cache recency on a hit), parse the emoji with no
guild, then either overwrite the first matching reaction's count with
the payload count, or append a fresh reaction carrying the payload
count. -/
def parse_reaction (s : RegState) (p : ReactionPayload) : Option Nat × RegState :=
  let (mOpt, s1) := get_message_by_id s p.message_id
  let count := p.count
  let (e, s2) := parse_emoji s1 p.emoji none
  match mOpt with
  | none => (none, s2)
  | some m =>
      match findMatchingRid s2.reaction_heap e m.reactions with
      | some rid =>
          (some rid,
           { s2 with reaction_heap := updateA rid (fun r => { r with count := count }) s2.reaction_heap })
      | none =>
          let rid := s2.next_rid
          (some rid,
           { s2 with
             reaction_heap := insertA rid { count := count, emoji := e, message_id := m.id } s2.reaction_heap
             message_heap := updateA m.id (fun m0 => { m0 with reactions := m0.reactions ++ [rid] }) s2.message_heap
             next_rid := rid + 1 })

/-- `StateRegistryImpl.parse_role` (lines 352-361).  `Role.update_state`
touches no modelled field beyond id and guild id.  A guild object not
in the registry is detached (no-op, see `parse_member`). -/
def parse_role (s : RegState) (role_id : Nat) (guild_id : Nat) : RegState :=
  match lookupA guild_id s._guilds with
  | none => s
  | some g =>
      match lookupA role_id g.roles with
      | some _ => s
      | none =>
          { s with _guilds := updateA guild_id (fun g0 => { g0 with
              roles := g0.roles ++ [(role_id, { id := role_id, guild_id := guild_id })] }) s._guilds }

/-- `StateRegistryImpl.delete_channel` (lines 123-132).  A guild-kind
channel found in the flat index is deleted first from its guild's
collection then from the index (neither `del` is guarded: a missing
guild raises `AttributeError`, a missing guild-collection entry raises
`KeyError`, both before any mutation); a DM channel is dropped from the
bounded index; an absent channel falls through both branches, a no-op. -/
def delete_channel (s : RegState) (channel_id : Nat) : Except RegErr Unit × RegState :=
  if channel_id ∈ s._guild_channels then
    match lookupA channel_id s.channel_heap with
    | none => (Except.error RegErr.attributeError, s)
    | some ch =>
        match ch.guild_id with
        | none => (Except.error RegErr.attributeError, s)
        | some gid =>
            match lookupA gid s._guilds with
            | none => (Except.error RegErr.attributeError, s)
            | some g =>
                if channel_id ∈ g.channels then
                  (Except.ok (),
                   { s with
                     _guilds := updateA gid
                       (fun g0 => { g0 with channels := g0.channels.erase channel_id }) s._guilds
                     _guild_channels := s._guild_channels.erase channel_id })
                else (Except.error RegErr.keyError, s)
  else if channel_id ∈ s._dm_channels then
    (Except.ok (), { s with _dm_channels := s._dm_channels.erase channel_id })
  else (Except.ok (), s)

/-- `StateRegistryImpl.delete_emoji` (lines 134-141): drop the weak
index entry under `suppress(KeyError)`, then resolve
`emoji_obj.guild` — modelled from the spec as a registry lookup by the
emoji's stored guild id, following the `GuildChannel.guild` accessor in
`models/channels.py` (`models/emojis.py` is not under `src/`).  A
missing guild makes `guild_obj.emojis` an attribute access on `None`,
an `AttributeError` the suppression does not cover. -/
def delete_emoji (s : RegState) (emoji_id : Nat) (emoji_guild_id : Nat) : Except RegErr Unit × RegState :=
  let s1 := { s with _emojis := s._emojis.erase emoji_id }
  match lookupA emoji_guild_id s1._guilds with
  | none => (Except.error RegErr.attributeError, s1)
  | some _ =>
      (Except.ok (),
       { s1 with _guilds := (updateA emoji_guild_id
           (fun g0 => { g0 with emojis := g0.emojis.erase emoji_id }) s1._guilds) })

/-- `StateRegistryImpl.delete_guild` (lines 143-145). -/
def delete_guild (s : RegState) (guild_id : Nat) : RegState :=
  { s with _guilds := removeA guild_id s._guilds }

/-- `StateRegistryImpl.delete_message` (lines 147-150): both statements
sit under `suppress(KeyError)`, so an uncached message is a no-op. -/
def delete_message (s : RegState) (message_id : Nat) : RegState :=
  if message_id ∈ s._message_cache then
    { s with _message_cache := s._message_cache.erase message_id }
  else s

/-- `StateRegistryImpl.delete_member` (lines 152-154):
`member_obj.guild` is a direct strong reference held by the member; a
guild absent from the registry is a detached object whose mutation is
unobservable. -/
def delete_member (s : RegState) (user_id : Nat) (guild_id : Nat) : RegState :=
  match lookupA guild_id s._guilds with
  | none => s
  | some _ =>
      { s with _guilds := (updateA guild_id
          (fun g0 => { g0 with members := removeA user_id g0.members }) s._guilds) }

/-- `StateRegistryImpl.delete_role` (lines 176-187).  `role_obj.guild`
is modelled from the spec as a registry lookup by the role's guild id
(`models/roles.py` is not under `src/`; the accessor follows
`GuildChannel.guild`), raising on a missing guild.  The member
clean-up loop sits inside the `suppress(KeyError)` block after
`del guild_obj.roles[role_obj.id]`, so when the guild's role table does
not contain the role the `KeyError` aborts the block and no member is
touched.  Each member clean-up removes the first occurrence
(`if role_obj in member.roles: member.roles.remove(role_obj)`). -/
def delete_role (s : RegState) (role_id : Nat) (role_guild_id : Nat) : Except RegErr Unit × RegState :=
  match lookupA role_guild_id s._guilds with
  | none => (Except.error RegErr.attributeError, s)
  | some g =>
      if (lookupA role_id g.roles).isSome then
        (Except.ok (),
         { s with _guilds := updateA role_guild_id (fun g0 =>
             { g0 with roles := removeA role_id g0.roles,
                       members := g0.members.map
                         (fun um => (um.1, { um.2 with roles := um.2.roles.erase role_id })) }) s._guilds })
      else (Except.ok (), s)

/-- `StateRegistryImpl.set_roles_for_member` (lines 401-404):
replace the member object's role list; observable when the member sits
in a registry guild. -/
def set_roles_for_member (s : RegState) (role_ids : List Nat) (user_id : Nat) (guild_id : Nat) : RegState :=
  match lookupA guild_id s._guilds with
  | none => s
  | some g =>
      if (lookupA user_id g.members).isSome then
        { s with _guilds := updateA guild_id (fun g0 => { g0 with
            members := updateA user_id (fun m => { m with roles := role_ids }) g0.members }) s._guilds }
      else s

/-- `StateRegistryImpl.set_guild_unavailability` (lines 389-392). -/
def set_guild_unavailability (s : RegState) (guild_id : Nat) (b : Bool) : RegState :=
  match lookupA guild_id s._guilds with
  | none => s
  | some _ =>
      { s with _guilds := updateA guild_id (fun g0 => { g0 with unavailable := b }) s._guilds }

/-- The mutating operations of the registry's public interface covered
by this development; reaction and member operations address their
target objects through the registry's own collections. -/
inductive Op
  | opParseBotUser (p : UserPayload)
  | opParseChannel (p : ChannelPayload) (guild : Option Nat)
  | opParseGuild (p : GuildPayload)
  | opParseMember (p : MemberPayload) (guild_id : Nat)
  | opParseMessage (p : MessagePayload)
  | opParseReaction (p : ReactionPayload)
  | opParseRole (role_id : Nat) (guild_id : Nat)
  | opParseUser (p : UserPayload)
  | opIncrementReaction (mid : Nat) (e : Emoji)
  | opDecrementReaction (mid : Nat) (e : Emoji)
  | opDeleteChannel (cid : Nat)
  | opDeleteEmoji (eid : Nat) (egid : Nat)
  | opDeleteGuild (gid : Nat)
  | opDeleteMember (uid : Nat) (gid : Nat)
  | opDeleteMessage (mid : Nat)
  | opDeleteReaction (mid : Nat) (e : Emoji)
  | opDeleteAllReactions (mid : Nat)
  | opDeleteRole (rid : Nat) (rgid : Nat)
  | opSetRolesForMember (roles : List Nat) (uid : Nat) (gid : Nat)
  | opSetGuildUnavailability (gid : Nat) (b : Bool)
deriving DecidableEq, Repr

/-- One mutating call against the registry (results discarded). -/
def step (s : RegState) : Op → RegState
  | .opParseBotUser p => (parse_bot_user s p).2
  | .opParseChannel p g => (parse_channel s p g).2
  | .opParseGuild p => (parse_guild s p).2
  | .opParseMember p gid => parse_member s p gid
  | .opParseMessage p => (parse_message s p).2
  | .opParseReaction p => (parse_reaction s p).2
  | .opParseRole rid gid => parse_role s rid gid
  | .opParseUser p => (parse_user s p).2
  | .opIncrementReaction mid e => (increment_reaction_count s mid e).2
  | .opDecrementReaction mid e => (decrement_reaction_count s mid e).2
  | .opDeleteChannel cid => (delete_channel s cid).2
  | .opDeleteEmoji eid egid => (delete_emoji s eid egid).2
  | .opDeleteGuild gid => delete_guild s gid
  | .opDeleteMember uid gid => delete_member s uid gid
  | .opDeleteMessage mid => delete_message s mid
  | .opDeleteReaction mid e => delete_reaction s mid e
  | .opDeleteAllReactions mid => delete_all_reactions s mid
  | .opDeleteRole rid rgid => (delete_role s rid rgid).2
  | .opSetRolesForMember roles uid gid => set_roles_for_member s roles uid gid
  | .opSetGuildUnavailability gid b => set_guild_unavailability s gid b

/-- A sequence of mutating calls applied in arrival order. -/
def runOps (s : RegState) : List Op → RegState
  | [] => s
  | op :: rest => runOps (step s op) rest

/-! ## Association-list and LRU lemmas -/

theorem lookupA_updateA (k k' : Nat) (f : α → α) (l : List (Nat × α)) :
    lookupA k (updateA k' f l) = if k' = k then (lookupA k l).map f else lookupA k l := by
  induction l with
  | nil => by_cases h : k' = k <;> simp [lookupA, updateA, h]
  | cons hd tl ih =>
      obtain ⟨a, v⟩ := hd
      by_cases h1 : a = k'
      · subst h1
        by_cases h2 : a = k
        · subst h2; simp [lookupA, updateA]
        · simp [lookupA, updateA, h2]
      · by_cases h2 : a = k
        · subst h2
          have hk : ¬ k' = a := fun h => h1 h.symm
          simp [lookupA, updateA, h1, hk]
        · simp [lookupA, updateA, h1, h2, ih]

theorem lookupA_updateA_self (k : Nat) (f : α → α) (l : List (Nat × α)) :
    lookupA k (updateA k f l) = (lookupA k l).map f := by
  simp [lookupA_updateA]

theorem lookupA_updateA_ne (k k' : Nat) (f : α → α) (l : List (Nat × α)) (h : k' ≠ k) :
    lookupA k (updateA k' f l) = lookupA k l := by
  simp [lookupA_updateA, h]

theorem lookupA_append (k : Nat) (l l' : List (Nat × α)) :
    lookupA k (l ++ l') = ((lookupA k l).orElse (fun _ => lookupA k l')) := by
  induction l with
  | nil => simp [lookupA]
  | cons hd tl ih =>
      obtain ⟨a, v⟩ := hd
      by_cases h : a = k <;> simp [lookupA, h, ih]

theorem lookupA_insertA_self (k : Nat) (v : α) (l : List (Nat × α)) :
    lookupA k (insertA k v l) = some v := by
  unfold insertA
  by_cases h : (lookupA k l).isSome
  · simp [h, lookupA_updateA_self]
    obtain ⟨w, hw⟩ := Option.isSome_iff_exists.mp h
    simp [hw]
  · simp [h, lookupA_append]
    have : lookupA k l = none := Option.not_isSome_iff_eq_none.mp h
    simp [this, lookupA]

theorem lookupA_insertA_ne (k k' : Nat) (v : α) (l : List (Nat × α)) (h : k' ≠ k) :
    lookupA k (insertA k' v l) = lookupA k l := by
  unfold insertA
  by_cases hs : (lookupA k' l).isSome
  · simp [hs, lookupA_updateA_ne _ _ _ _ h]
  · have hsingle : lookupA k [(k', v)] = none := by simp [lookupA, h]
    simp [hs, lookupA_append, hsingle]

theorem lookupA_insertA_cases (k k' : Nat) (v : α) (l : List (Nat × α)) (w : α)
    (h : lookupA k (insertA k' v l) = some w) :
    (k = k' ∧ w = v) ∨ (k ≠ k' ∧ lookupA k l = some w) := by
  by_cases hk : k = k'
  · subst hk; rw [lookupA_insertA_self] at h
    exact Or.inl ⟨rfl, (Option.some.injEq _ _ ▸ h).symm⟩
  · rw [lookupA_insertA_ne _ _ _ _ (fun hh => hk hh.symm)] at h
    exact Or.inr ⟨hk, h⟩

theorem removeA_of_lookup_none (k : Nat) (l : List (Nat × α)) (h : lookupA k l = none) :
    removeA k l = l := by
  induction l with
  | nil => rfl
  | cons hd tl ih =>
      obtain ⟨a, v⟩ := hd
      by_cases ha : a = k
      · simp [lookupA, ha] at h
      · simp [lookupA, ha] at h
        simp [removeA, ha, ih h]

theorem updateA_congr_self (k : Nat) (f : α → α) (l : List (Nat × α))
    (h : ∀ v, lookupA k l = some v → f v = v) : updateA k f l = l := by
  induction l with
  | nil => rfl
  | cons hd tl ih =>
      obtain ⟨a, v⟩ := hd
      by_cases ha : a = k
      · subst ha
        have : f v = v := h v (by simp [lookupA])
        simp [updateA, this]
      · simp [lookupA, ha] at h
        simp [updateA, ha, ih h]

theorem lookupA_of_updateA_none (k k' : Nat) (f : α → α) (l : List (Nat × α))
    (h : lookupA k l = none) : lookupA k (updateA k' f l) = none := by
  rw [lookupA_updateA]
  by_cases hk : k' = k <;> simp [hk, h]

theorem lookupA_map_value (k : Nat) (f : α → α) (l : List (Nat × α)) :
    lookupA k (l.map (fun p => (p.1, f p.2))) = (lookupA k l).map f := by
  induction l with
  | nil => simp [lookupA]
  | cons hd tl ih =>
      obtain ⟨a, v⟩ := hd
      by_cases h : a = k <;> simp [lookupA, h, ih]

theorem lruPut_length_le (cap k : Nat) (l : List Nat) : (lruPut cap k l).length ≤ cap :=
  List.length_take_le cap (k :: l.erase k)

theorem lruRefresh_length (k : Nat) (l : List Nat) : (lruRefresh k l).length = l.length := by
  unfold lruRefresh
  by_cases h : k ∈ l
  · have h1 := List.length_erase_of_mem h
    have h2 := List.length_pos_of_mem h
    simp only [h, if_pos, List.length_cons, h1]
    omega
  · simp [h]

theorem lruRefresh_mem_self (k : Nat) (l : List Nat) (h : k ∈ l) : k ∈ lruRefresh k l := by
  simp [lruRefresh, h]

theorem lruPut_of_full (cap k : Nat) (l : List Nat) (hcap : 0 < cap) (hk : k ∉ l)
    (hlen : l.length = cap) : lruPut cap k l = k :: l.dropLast := by
  unfold lruPut
  rw [List.erase_of_not_mem hk]
  cases cap with
  | zero => omega
  | succ n =>
      rw [List.take_succ_cons, List.dropLast_eq_take, hlen, Nat.add_sub_cancel]

/-! ## Frame lemmas: which registry fields each operation can touch -/

theorem parse_bot_user_frame (s : RegState) (p : UserPayload) :
    ∃ u bc, (parse_bot_user s p).2 = { s with _user := u, bot_users_created := bc } := by
  unfold parse_bot_user
  cases hu : s._user with
  | some u => exact ⟨s._user, s.bot_users_created, rfl⟩
  | none => exact ⟨_, _, rfl⟩

theorem parse_user_frame (s : RegState) (p : UserPayload) :
    ∃ us u bc, (parse_user s p).2 =
      { s with _users := us, _user := u, bot_users_created := bc } := by
  unfold parse_user
  cases hb : isBotUserPayload s p with
  | true =>
      simp only [hb, if_true]
      obtain ⟨u, bc, h⟩ := parse_bot_user_frame s p
      exact ⟨s._users, u, bc, by rw [h]⟩
  | false =>
      simp only [hb, Bool.false_eq_true, if_false]
      cases hl : lookupA p.id s._users with
      | none => exact ⟨_, _, _, rfl⟩
      | some u => exact ⟨s._users, s._user, s.bot_users_created, rfl⟩

theorem parseRecipients_frame (l : List UserPayload) : ∀ s : RegState,
    ∃ us u bc, (parseRecipients s l).2 =
      { s with _users := us, _user := u, bot_users_created := bc } := by
  induction l with
  | nil => intro s; exact ⟨s._users, s._user, s.bot_users_created, rfl⟩
  | cons hd tl ih =>
      intro s
      obtain ⟨us1, u1, bc1, h1⟩ := parse_user_frame s hd
      obtain ⟨us2, u2, bc2, h2⟩ := ih (parse_user s hd).2
      refine ⟨us2, u2, bc2, ?_⟩
      show (parseRecipients (parse_user s hd).2 tl).2 = _
      rw [h2, h1]

theorem dmChannelUpdateState_frame (s : RegState) (ch : Channel) (p : ChannelPayload) :
    ∃ us u bc, (dmChannelUpdateState s ch p).2 =
      { s with _users := us, _user := u, bot_users_created := bc } := by
  obtain ⟨us, u, bc, h⟩ := parseRecipients_frame p.recipients s
  exact ⟨us, u, bc, h⟩

theorem channelUpdateState_frame (s : RegState) (ch : Channel) (p : ChannelPayload) :
    ∃ us u bc, (channelUpdateState s ch p).2 =
      { s with _users := us, _user := u, bot_users_created := bc } := by
  unfold channelUpdateState
  split
  · exact ⟨s._users, s._user, s.bot_users_created, rfl⟩
  · exact dmChannelUpdateState_frame s ch p
  · exact ⟨s._users, s._user, s.bot_users_created, rfl⟩
  · obtain ⟨us, u, bc, h⟩ := dmChannelUpdateState_frame s ch p
    exact ⟨us, u, bc, h⟩
  · exact ⟨s._users, s._user, s.bot_users_created, rfl⟩
  · exact ⟨s._users, s._user, s.bot_users_created, rfl⟩
  · exact ⟨s._users, s._user, s.bot_users_created, rfl⟩
  · exact ⟨s._users, s._user, s.bot_users_created, rfl⟩

theorem channelsParseChannel_frame (s : RegState) (p : ChannelPayload) :
    ∃ us u bc, (channelsParseChannel s p).2 =
      { s with _users := us, _user := u, bot_users_created := bc } := by
  unfold channelsParseChannel
  split
  · split
    · split
      · exact channelUpdateState_frame s _ p
      · split
        · exact channelUpdateState_frame s _ p
        · exact ⟨s._users, s._user, s.bot_users_created, rfl⟩
    · exact ⟨s._users, s._user, s.bot_users_created, rfl⟩
  · exact ⟨s._users, s._user, s.bot_users_created, rfl⟩

theorem parse_emoji_frame (s : RegState) (p : EmojiPayload) (g : Option Nat) :
    ∃ gs es eh, (parse_emoji s p g).2 =
      { s with _guilds := gs, _emojis := es, emoji_heap := eh } := by
  unfold parse_emoji
  split
  · exact ⟨s._guilds, s._emojis, s.emoji_heap, rfl⟩
  · split
    · exact ⟨s._guilds, s._emojis, _, rfl⟩
    · split
      · split
        · exact ⟨_, _, _, rfl⟩
        · exact ⟨s._guilds, s._emojis, s.emoji_heap, rfl⟩
      · exact ⟨s._guilds, s._emojis, s.emoji_heap, rfl⟩

theorem get_channel_by_id_frame (s : RegState) (cid : Nat) :
    ∃ dm, (get_channel_by_id s cid).2 = { s with _dm_channels := dm } ∧
      dm.length = s._dm_channels.length := by
  unfold get_channel_by_id
  split
  · exact ⟨s._dm_channels, rfl, rfl⟩
  · split
    · split
      · exact ⟨lruRefresh cid s._dm_channels, rfl, lruRefresh_length _ _⟩
      · exact ⟨s._dm_channels, rfl, rfl⟩
    · exact ⟨s._dm_channels, rfl, rfl⟩

theorem get_message_by_id_frame (s : RegState) (mid : Nat) :
    ∃ mc, (get_message_by_id s mid).2 = { s with _message_cache := mc } ∧
      mc.length = s._message_cache.length := by
  unfold get_message_by_id
  split
  · split
    · exact ⟨lruRefresh mid s._message_cache, rfl, lruRefresh_length _ _⟩
    · exact ⟨s._message_cache, rfl, rfl⟩
  · exact ⟨s._message_cache, rfl, rfl⟩

theorem parse_guild_frame (s : RegState) (p : GuildPayload) :
    ∃ gs, (parse_guild s p).2 = { s with _guilds := gs } := by
  unfold parse_guild
  dsimp only
  split
  · exact ⟨_, rfl⟩
  · exact ⟨_, rfl⟩

theorem parse_member_frame (s : RegState) (p : MemberPayload) (gid : Nat) :
    ∃ gs, parse_member s p gid = { s with _guilds := gs } := by
  unfold parse_member
  split
  · exact ⟨s._guilds, rfl⟩
  · dsimp only
    split
    · exact ⟨_, rfl⟩
    · exact ⟨_, rfl⟩

theorem parse_role_frame (s : RegState) (rid gid : Nat) :
    ∃ gs, parse_role s rid gid = { s with _guilds := gs } := by
  unfold parse_role
  split
  · exact ⟨s._guilds, rfl⟩
  · split
    · exact ⟨s._guilds, rfl⟩
    · exact ⟨_, rfl⟩

theorem delete_guild_frame (s : RegState) (gid : Nat) :
    ∃ gs, delete_guild s gid = { s with _guilds := gs } :=
  ⟨_, rfl⟩

theorem delete_member_frame (s : RegState) (uid gid : Nat) :
    ∃ gs, delete_member s uid gid = { s with _guilds := gs } := by
  unfold delete_member
  split
  · exact ⟨s._guilds, rfl⟩
  · exact ⟨_, rfl⟩

theorem delete_role_frame (s : RegState) (rid rgid : Nat) :
    ∃ gs, (delete_role s rid rgid).2 = { s with _guilds := gs } := by
  unfold delete_role
  split
  · exact ⟨s._guilds, rfl⟩
  · split
    · exact ⟨_, rfl⟩
    · exact ⟨s._guilds, rfl⟩

theorem delete_emoji_frame (s : RegState) (eid egid : Nat) :
    ∃ es gs, (delete_emoji s eid egid).2 = { s with _emojis := es, _guilds := gs } := by
  unfold delete_emoji
  dsimp only
  split
  · exact ⟨_, s._guilds, rfl⟩
  · exact ⟨_, _, rfl⟩

theorem set_roles_for_member_frame (s : RegState) (roles : List Nat) (uid gid : Nat) :
    ∃ gs, set_roles_for_member s roles uid gid = { s with _guilds := gs } := by
  unfold set_roles_for_member
  split
  · exact ⟨s._guilds, rfl⟩
  · split
    · exact ⟨_, rfl⟩
    · exact ⟨s._guilds, rfl⟩

theorem set_guild_unavailability_frame (s : RegState) (gid : Nat) (b : Bool) :
    ∃ gs, set_guild_unavailability s gid b = { s with _guilds := gs } := by
  unfold set_guild_unavailability
  split
  · exact ⟨s._guilds, rfl⟩
  · exact ⟨_, rfl⟩

theorem delete_message_frame (s : RegState) (mid : Nat) :
    ∃ mc, delete_message s mid = { s with _message_cache := mc } ∧
      mc.length ≤ s._message_cache.length := by
  unfold delete_message
  split
  · exact ⟨_, rfl, List.length_erase_le _ _⟩
  · exact ⟨s._message_cache, rfl, le_refl _⟩

theorem delete_channel_frame (s : RegState) (cid : Nat) :
    ∃ gs gc dm, (delete_channel s cid).2 =
      { s with _guilds := gs, _guild_channels := gc, _dm_channels := dm } ∧
      dm.length ≤ s._dm_channels.length := by
  unfold delete_channel
  split
  · split
    · exact ⟨s._guilds, s._guild_channels, s._dm_channels, rfl, le_refl _⟩
    · split
      · exact ⟨s._guilds, s._guild_channels, s._dm_channels, rfl, le_refl _⟩
      · split
        · exact ⟨s._guilds, s._guild_channels, s._dm_channels, rfl, le_refl _⟩
        · split
          · exact ⟨_, _, s._dm_channels, rfl, le_refl _⟩
          · exact ⟨s._guilds, s._guild_channels, s._dm_channels, rfl, le_refl _⟩
  · split
    · exact ⟨s._guilds, s._guild_channels, _, rfl, List.length_erase_le _ _⟩
    · exact ⟨s._guilds, s._guild_channels, s._dm_channels, rfl, le_refl _⟩

theorem increment_reaction_count_frame (s : RegState) (mid : Nat) (e : Emoji) :
    ∃ rh mh nr, (increment_reaction_count s mid e).2 =
      { s with reaction_heap := rh, message_heap := mh, next_rid := nr } := by
  unfold increment_reaction_count
  split
  · exact ⟨s.reaction_heap, s.message_heap, s.next_rid, rfl⟩
  · split
    · exact ⟨_, s.message_heap, s.next_rid, rfl⟩
    · exact ⟨_, _, _, rfl⟩

theorem decrement_reaction_count_frame (s : RegState) (mid : Nat) (e : Emoji) :
    ∃ rh mh nr, (decrement_reaction_count s mid e).2 =
      { s with reaction_heap := rh, message_heap := mh, next_rid := nr } := by
  unfold decrement_reaction_count
  split
  · exact ⟨s.reaction_heap, s.message_heap, s.next_rid, rfl⟩
  · split
    · exact ⟨s.reaction_heap, s.message_heap, s.next_rid, rfl⟩
    · exact ⟨_, _, s.next_rid, rfl⟩

theorem delete_reaction_frame (s : RegState) (mid : Nat) (e : Emoji) :
    ∃ rh mh nr, delete_reaction s mid e =
      { s with reaction_heap := rh, message_heap := mh, next_rid := nr } := by
  unfold delete_reaction
  split
  · exact ⟨s.reaction_heap, s.message_heap, s.next_rid, rfl⟩
  · split
    · exact ⟨s.reaction_heap, s.message_heap, s.next_rid, rfl⟩
    · exact ⟨_, _, s.next_rid, rfl⟩

theorem delete_all_reactions_frame (s : RegState) (mid : Nat) :
    ∃ rh mh nr, delete_all_reactions s mid =
      { s with reaction_heap := rh, message_heap := mh, next_rid := nr } := by
  unfold delete_all_reactions
  split
  · exact ⟨s.reaction_heap, s.message_heap, s.next_rid, rfl⟩
  · exact ⟨_, _, s.next_rid, rfl⟩

theorem parse_message_frame (s : RegState) (p : MessagePayload) :
    ∃ chh mh mc dm, (parse_message s p).2 =
      { s with channel_heap := chh, message_heap := mh, _message_cache := mc, _dm_channels := dm } ∧
      mc.length ≤ max s._message_cache.length s.msg_cap ∧
      dm.length = s._dm_channels.length ∧
      (mh = insertA p.id { id := p.id, channel_id := p.channel_id, reactions := [] } s.message_heap ∨
       mh = s.message_heap) := by
  unfold parse_message
  dsimp only
  obtain ⟨dm1, h1, hlen1⟩ := get_channel_by_id_frame s p.channel_id
  cases hg : (get_channel_by_id s p.channel_id).1 with
  | none =>
      dsimp only
      refine ⟨s.channel_heap, s.message_heap, s._message_cache, dm1, ?_, le_max_left _ _, hlen1,
        Or.inr rfl⟩
      rw [h1]
  | some ch0 =>
      dsimp only
      obtain ⟨dm2, h2, hlen2⟩ :=
        get_channel_by_id_frame ((get_channel_by_id s p.channel_id).2) p.channel_id
      rw [h1] at hlen2
      dsimp only at hlen2
      rw [hlen1] at hlen2
      cases hg2 : (get_channel_by_id (get_channel_by_id s p.channel_id).2 p.channel_id).1 with
      | none =>
          dsimp only
          rw [h2, h1]
          dsimp only
          exact ⟨_, _, _, dm2, rfl, le_trans (lruPut_length_le _ _ _) (le_max_right _ _), hlen2,
            Or.inl rfl⟩
      | some ch =>
          dsimp only
          rw [h2, h1]
          dsimp only
          exact ⟨_, _, _, dm2, rfl, le_trans (lruPut_length_le _ _ _) (le_max_right _ _), hlen2,
            Or.inl rfl⟩

theorem parse_reaction_frame (s : RegState) (p : ReactionPayload) :
    ∃ rh mh nr mc gs es eh, (parse_reaction s p).2 =
      { s with reaction_heap := rh, message_heap := mh, next_rid := nr, _message_cache := mc,
               _guilds := gs, _emojis := es, emoji_heap := eh } ∧
      mc.length = s._message_cache.length := by
  unfold parse_reaction
  dsimp only
  obtain ⟨mc1, h1, hlen1⟩ := get_message_by_id_frame s p.message_id
  obtain ⟨gs2, es2, eh2, h2⟩ :=
    parse_emoji_frame ((get_message_by_id s p.message_id).2) p.emoji none
  cases hg : (get_message_by_id s p.message_id).1 with
  | none =>
      dsimp only
      rw [h2, h1]
      dsimp only
      exact ⟨_, _, _, mc1, _, _, _, rfl, hlen1⟩
  | some m =>
      dsimp only
      split
      · rw [h2, h1]
        dsimp only
        exact ⟨_, _, _, mc1, _, _, _, rfl, hlen1⟩
      · rw [h2, h1]
        dsimp only
        exact ⟨_, _, _, mc1, _, _, _, rfl, hlen1⟩

theorem parse_channel_frame (s : RegState) (p0 : ChannelPayload) (g : Option Nat) :
    ∃ chh gc gs dm us u bc, (parse_channel s p0 g).2 =
      { s with channel_heap := chh, _guild_channels := gc, _guilds := gs, _dm_channels := dm,
               _users := us, _user := u, bot_users_created := bc } ∧
      dm.length ≤ max s._dm_channels.length s.dm_cap := by
  unfold parse_channel
  dsimp only
  obtain ⟨dm1, h1, hlen1⟩ := get_channel_by_id_frame s p0.id
  have hdm1 : dm1.length ≤ max s._dm_channels.length s.dm_cap := by
    rw [hlen1]; exact le_max_left _ _
  cases hg : (get_channel_by_id s p0.id).1 with
  | some ch =>
      dsimp only
      obtain ⟨us2, u2, bc2, h2⟩ :=
        channelUpdateState_frame ((get_channel_by_id s p0.id).2) ch (withGuildId p0 g)
      rw [h2, h1]
      dsimp only
      exact ⟨_, _, _, dm1, _, _, _, rfl, hdm1⟩
  | none =>
      dsimp only
      obtain ⟨us2, u2, bc2, h2⟩ :=
        channelsParseChannel_frame ((get_channel_by_id s p0.id).2) (withGuildId p0 g)
      split
      next e s2 hc =>
        rw [hc] at h2
        dsimp only at h2
        rw [h2, h1]
        dsimp only
        exact ⟨_, _, _, dm1, _, _, _, rfl, hdm1⟩
      next ch s2 hc =>
        rw [hc] at h2
        dsimp only at h2
        rw [h1] at h2
        dsimp only at h2
        split
        · rw [h2]
          dsimp only
          refine ⟨_, _, _, _, _, _, _, rfl, ?_⟩
          exact le_trans (lruPut_length_le _ _ _) (le_max_right _ _)
        · split
          · rw [h2]
            dsimp only
            exact ⟨_, _, _, dm1, _, _, _, rfl, hdm1⟩
          · split
            · rw [h2]
              dsimp only
              exact ⟨_, _, _, dm1, _, _, _, rfl, hdm1⟩
            · rw [h2]
              dsimp only
              exact ⟨_, _, _, dm1, _, _, _, rfl, hdm1⟩

/-! ## Bounded-cache invariant -/

theorem step_cache_bounds (s : RegState) (op : Op) :
    (step s op).msg_cap = s.msg_cap ∧ (step s op).dm_cap = s.dm_cap ∧
    (step s op)._message_cache.length ≤ max s._message_cache.length s.msg_cap ∧
    (step s op)._dm_channels.length ≤ max s._dm_channels.length s.dm_cap := by
  cases op with
  | opParseBotUser p =>
      obtain ⟨u, bc, h⟩ := parse_bot_user_frame s p
      simp only [step]
      rw [h]
      exact ⟨rfl, rfl, le_max_left _ _, le_max_left _ _⟩
  | opParseChannel p g =>
      obtain ⟨chh, gc, gs, dm, us, u, bc, h, hb⟩ := parse_channel_frame s p g
      simp only [step]
      rw [h]
      exact ⟨rfl, rfl, le_max_left _ _, hb⟩
  | opParseGuild p =>
      obtain ⟨gs, h⟩ := parse_guild_frame s p
      simp only [step]
      rw [h]
      exact ⟨rfl, rfl, le_max_left _ _, le_max_left _ _⟩
  | opParseMember p gid =>
      obtain ⟨gs, h⟩ := parse_member_frame s p gid
      simp only [step]
      rw [h]
      exact ⟨rfl, rfl, le_max_left _ _, le_max_left _ _⟩
  | opParseMessage p =>
      obtain ⟨chh, mh, mc, dm, h, hmc, hdm, hmembers⟩ := parse_message_frame s p
      simp only [step]
      rw [h]
      refine ⟨rfl, rfl, hmc, ?_⟩
      rw [hdm]
      exact le_max_left _ _
  | opParseReaction p =>
      obtain ⟨rh, mh, nr, mc, gs, es, eh, h, hmc⟩ := parse_reaction_frame s p
      simp only [step]
      rw [h]
      refine ⟨rfl, rfl, ?_, le_max_left _ _⟩
      rw [hmc]
      exact le_max_left _ _
  | opParseRole rid gid =>
      obtain ⟨gs, h⟩ := parse_role_frame s rid gid
      simp only [step]
      rw [h]
      exact ⟨rfl, rfl, le_max_left _ _, le_max_left _ _⟩
  | opParseUser p =>
      obtain ⟨us, u, bc, h⟩ := parse_user_frame s p
      simp only [step]
      rw [h]
      exact ⟨rfl, rfl, le_max_left _ _, le_max_left _ _⟩
  | opIncrementReaction mid e =>
      obtain ⟨rh, mh, nr, h⟩ := increment_reaction_count_frame s mid e
      simp only [step]
      rw [h]
      exact ⟨rfl, rfl, le_max_left _ _, le_max_left _ _⟩
  | opDecrementReaction mid e =>
      obtain ⟨rh, mh, nr, h⟩ := decrement_reaction_count_frame s mid e
      simp only [step]
      rw [h]
      exact ⟨rfl, rfl, le_max_left _ _, le_max_left _ _⟩
  | opDeleteChannel cid =>
      obtain ⟨gs, gc, dm, h, hdm⟩ := delete_channel_frame s cid
      simp only [step]
      rw [h]
      exact ⟨rfl, rfl, le_max_left _ _, le_trans hdm (le_max_left _ _)⟩
  | opDeleteEmoji eid egid =>
      obtain ⟨es, gs, h⟩ := delete_emoji_frame s eid egid
      simp only [step]
      rw [h]
      exact ⟨rfl, rfl, le_max_left _ _, le_max_left _ _⟩
  | opDeleteGuild gid =>
      obtain ⟨gs, h⟩ := delete_guild_frame s gid
      simp only [step]
      rw [h]
      exact ⟨rfl, rfl, le_max_left _ _, le_max_left _ _⟩
  | opDeleteMember uid gid =>
      obtain ⟨gs, h⟩ := delete_member_frame s uid gid
      simp only [step]
      rw [h]
      exact ⟨rfl, rfl, le_max_left _ _, le_max_left _ _⟩
  | opDeleteMessage mid =>
      obtain ⟨mc, h, hmc⟩ := delete_message_frame s mid
      simp only [step]
      rw [h]
      exact ⟨rfl, rfl, le_trans hmc (le_max_left _ _), le_max_left _ _⟩
  | opDeleteReaction mid e =>
      obtain ⟨rh, mh, nr, h⟩ := delete_reaction_frame s mid e
      simp only [step]
      rw [h]
      exact ⟨rfl, rfl, le_max_left _ _, le_max_left _ _⟩
  | opDeleteAllReactions mid =>
      obtain ⟨rh, mh, nr, h⟩ := delete_all_reactions_frame s mid
      simp only [step]
      rw [h]
      exact ⟨rfl, rfl, le_max_left _ _, le_max_left _ _⟩
  | opDeleteRole rid rgid =>
      obtain ⟨gs, h⟩ := delete_role_frame s rid rgid
      simp only [step]
      rw [h]
      exact ⟨rfl, rfl, le_max_left _ _, le_max_left _ _⟩
  | opSetRolesForMember roles uid gid =>
      obtain ⟨gs, h⟩ := set_roles_for_member_frame s roles uid gid
      simp only [step]
      rw [h]
      exact ⟨rfl, rfl, le_max_left _ _, le_max_left _ _⟩
  | opSetGuildUnavailability gid b =>
      obtain ⟨gs, h⟩ := set_guild_unavailability_frame s gid b
      simp only [step]
      rw [h]
      exact ⟨rfl, rfl, le_max_left _ _, le_max_left _ _⟩

theorem runOps_caps (s : RegState) (ops : List Op) :
    (runOps s ops).msg_cap = s.msg_cap ∧ (runOps s ops).dm_cap = s.dm_cap := by
  induction ops generalizing s with
  | nil => exact ⟨rfl, rfl⟩
  | cons op rest ih =>
      obtain ⟨h1, h2, _, _⟩ := step_cache_bounds s op
      obtain ⟨ih1, ih2⟩ := ih (step s op)
      exact ⟨ih1.trans h1, ih2.trans h2⟩

theorem runOps_cache_bounds (s : RegState) (ops : List Op)
    (hm : s._message_cache.length ≤ s.msg_cap) (hd : s._dm_channels.length ≤ s.dm_cap) :
    (runOps s ops)._message_cache.length ≤ s.msg_cap ∧
    (runOps s ops)._dm_channels.length ≤ s.dm_cap := by
  induction ops generalizing s with
  | nil => exact ⟨hm, hd⟩
  | cons op rest ih =>
      obtain ⟨h1, h2, h3, h4⟩ := step_cache_bounds s op
      have hm' : (step s op)._message_cache.length ≤ (step s op).msg_cap := by
        rw [h1]; exact le_trans h3 (max_le hm (le_refl _))
      have hd' : (step s op)._dm_channels.length ≤ (step s op).dm_cap := by
        rw [h2]; exact le_trans h4 (max_le hd (le_refl _))
      obtain ⟨ih1, ih2⟩ := ih (step s op) hm' hd'
      rw [h1] at ih1
      rw [h2] at ih2
      exact ⟨ih1, ih2⟩

theorem get_channel_by_id_miss (s : RegState) (cid : Nat)
    (h : (get_channel_by_id s cid).1 = none) : get_channel_by_id s cid = (none, s) := by
  unfold get_channel_by_id at h ⊢
  cases hm : (if cid ∈ s._guild_channels then lookupA cid s.channel_heap else none) with
  | some ch => rw [hm] at h; simp at h
  | none =>
      rw [hm] at h
      dsimp only at h ⊢
      by_cases hdm : cid ∈ s._dm_channels
      · rw [if_pos hdm] at h ⊢
        cases hh : lookupA cid s.channel_heap with
        | some ch => rw [hh] at h; simp at h
        | none => rfl
      · rw [if_neg hdm]

theorem get_channel_by_id_hit_again (s : RegState) (cid : Nat) (ch : Channel)
    (h : (get_channel_by_id s cid).1 = some ch) :
    (get_channel_by_id (get_channel_by_id s cid).2 cid).1 = some ch := by
  unfold get_channel_by_id at h
  cases hm : (if cid ∈ s._guild_channels then lookupA cid s.channel_heap else none) with
  | some ch0 =>
      rw [hm] at h
      dsimp only at h
      have hfull : get_channel_by_id s cid = (some ch0, s) := by
        unfold get_channel_by_id
        rw [hm]
      rw [hfull]
      show (get_channel_by_id s cid).1 = some ch
      rw [hfull]
      dsimp only
      exact h
  | none =>
      rw [hm] at h
      dsimp only at h
      by_cases hdm : cid ∈ s._dm_channels
      · rw [if_pos hdm] at h
        cases hh : lookupA cid s.channel_heap with
        | none => rw [hh] at h; simp at h
        | some ch0 =>
            rw [hh] at h
            dsimp only at h
            have hfull : get_channel_by_id s cid =
                (some ch0, { s with _dm_channels := lruRefresh cid s._dm_channels }) := by
              unfold get_channel_by_id
              rw [hm, if_pos hdm, hh]
            rw [hfull]
            unfold get_channel_by_id
            dsimp only
            rw [hm, if_pos (lruRefresh_mem_self cid _ hdm), hh]
            exact h
      · rw [if_neg hdm] at h
        simp at h

/-- C4: in every registry state reachable by any sequence of operations,
the bounded message cache and the bounded DM-channel index hold at most
their configured capacities; inserting a fresh key into a full LRU
structure evicts exactly the least-recently-used (last) entry; and
recency is refreshed by lookups as well as insertions, so eviction is
LRU rather than FIFO (capacity-2 scenario: put 1, put 2, refresh 1 by a
lookup, put 3 retains 1 and evicts 2, where FIFO would have evicted 1). -/
theorem bounded_caches_and_lru_eviction :
    (∀ mc dc ops, (runOps (initState mc dc) ops)._message_cache.length ≤ mc ∧
                  (runOps (initState mc dc) ops)._dm_channels.length ≤ dc) ∧
    (∀ cap k (l : List Nat), 0 < cap → k ∉ l → l.length = cap →
       lruPut cap k l = k :: l.dropLast) ∧
    lruPut 2 3 (lruRefresh 1 (lruPut 2 2 (lruPut 2 1 ([] : List Nat)))) = [3, 1] := by
  refine ⟨?_, ?_, by decide⟩
  · intro mc dc ops
    exact runOps_cache_bounds (initState mc dc) ops (Nat.zero_le _) (Nat.zero_le _)
  · intro cap k l hcap hk hlen
    exact lruPut_of_full cap k l hcap hk hlen

/-- Witness for C4: the eviction equation applied at a concrete full
cache, with the hypotheses discharged by computation. -/
theorem bounded_caches_and_lru_eviction_witness :
    (0 < 2 ∧ (3 : Nat) ∉ [2, 1] ∧ ([2, 1] : List Nat).length = 2) ∧
      lruPut 2 3 [2, 1] = [3, 2] := by
  refine ⟨⟨by decide, by decide, by decide⟩, ?_⟩
  exact bounded_caches_and_lru_eviction.2.1 2 3 [2, 1] (by decide) (by decide) (by decide)

/-- C9: a message payload whose channel id resolves to no cached
channel makes `parse_message` return absence with the registry state —
message cache included — completely unchanged, and no error raised
(the operation is total). -/
theorem parse_message_unresolvable_channel (s : RegState) (p : MessagePayload)
    (h : (get_channel_by_id s p.channel_id).1 = none) :
    parse_message s p = (none, s) := by
  have h2 : (get_channel_by_id s p.channel_id).2 = s :=
    congrArg Prod.snd (get_channel_by_id_miss s p.channel_id h)
  unfold parse_message
  dsimp only
  rw [h]
  dsimp only
  rw [h2]

/-- Witness for C9: an empty registry resolves no channel, so a message
for channel 5 is dropped with the state unchanged. -/
theorem parse_message_unresolvable_channel_witness :
    parse_message (initState 2 2) { id := 1, channel_id := 5 } = (none, initState 2 2) :=
  parse_message_unresolvable_channel (initState 2 2) { id := 1, channel_id := 5 } (by decide)

/-- C10: a message payload whose channel id resolves mutates the
resolved channel: its `last_message_id` becomes the id of the parsed
message on every successful parse, unconditionally (no comparison with
the previous value). -/
theorem parse_message_sets_last_message_id (s : RegState) (p : MessagePayload) (ch : Channel)
    (h : (get_channel_by_id s p.channel_id).1 = some ch) :
    (parse_message s p).1 = some p.id ∧
    lookupA p.channel_id (parse_message s p).2.channel_heap =
      some { ch with last_message_id := some p.id } := by
  have h2 := get_channel_by_id_hit_again s p.channel_id ch h
  unfold parse_message
  dsimp only
  rw [h]
  dsimp only
  rw [h2]
  dsimp only
  exact ⟨rfl, lookupA_insertA_self _ _ _⟩

/-! ## Bot-user singleton invariant -/

/-- Relation between a pre-state and a post-state of a registry
operation, for the bot-user singleton: an existing instance survives
unchanged with the creation counter frozen; from an empty slot either
nothing happens or exactly one instance is created. -/
def BotOk (s t : RegState) : Prop :=
  (∀ u, s._user = some u → (t._user = some u ∧ t.bot_users_created = s.bot_users_created)) ∧
  (s._user = none →
     (t._user = none ∧ t.bot_users_created = s.bot_users_created) ∨
     (t._user.isSome ∧ t.bot_users_created = s.bot_users_created + 1))

theorem botOk_refl (s : RegState) : BotOk s s :=
  ⟨fun _ h => ⟨h, rfl⟩, fun h => Or.inl ⟨h, rfl⟩⟩

theorem botOk_of_eq (s t : RegState) (hu : t._user = s._user)
    (hc : t.bot_users_created = s.bot_users_created) : BotOk s t :=
  ⟨fun u h => ⟨by rw [hu, h], hc⟩, fun h => Or.inl ⟨by rw [hu, h], hc⟩⟩

theorem botOk_trans {s t r : RegState} (h1 : BotOk s t) (h2 : BotOk t r) : BotOk s r := by
  obtain ⟨a1, b1⟩ := h1
  obtain ⟨a2, b2⟩ := h2
  constructor
  · intro u hu
    obtain ⟨ht, hc⟩ := a1 u hu
    obtain ⟨hr, hc2⟩ := a2 u ht
    exact ⟨hr, by rw [hc2, hc]⟩
  · intro hn
    rcases b1 hn with ⟨ht, hc⟩ | ⟨ht, hc⟩
    · rcases b2 ht with ⟨hr, hc2⟩ | ⟨hr, hc2⟩
      · exact Or.inl ⟨hr, by rw [hc2, hc]⟩
      · exact Or.inr ⟨hr, by rw [hc2, hc]⟩
    · obtain ⟨u, hu⟩ := Option.isSome_iff_exists.mp ht
      obtain ⟨hr, hc2⟩ := a2 u hu
      refine Or.inr ⟨by rw [hr]; rfl, by rw [hc2, hc]⟩

theorem parse_bot_user_botOk (s : RegState) (p : UserPayload) :
    BotOk s (parse_bot_user s p).2 := by
  unfold parse_bot_user
  cases hu : s._user with
  | some u => exact botOk_refl s
  | none =>
      dsimp only
      constructor
      · intro u h
        rw [hu] at h
        cases h
      · intro _
        exact Or.inr ⟨rfl, rfl⟩

theorem parse_user_botOk (s : RegState) (p : UserPayload) :
    BotOk s (parse_user s p).2 := by
  unfold parse_user
  by_cases hb : isBotUserPayload s p = true
  · rw [if_pos hb]
    exact parse_bot_user_botOk s p
  · rw [if_neg hb]
    cases hl : lookupA p.id s._users with
    | none => exact botOk_of_eq s _ rfl rfl
    | some u => exact botOk_refl s

theorem parseRecipients_botOk (l : List UserPayload) : ∀ s : RegState,
    BotOk s (parseRecipients s l).2 := by
  induction l with
  | nil => intro s; exact botOk_refl s
  | cons hd tl ih =>
      intro s
      exact botOk_trans (parse_user_botOk s hd) (ih (parse_user s hd).2)

theorem dmChannelUpdateState_botOk (s : RegState) (ch : Channel) (p : ChannelPayload) :
    BotOk s (dmChannelUpdateState s ch p).2 :=
  parseRecipients_botOk p.recipients s

theorem channelUpdateState_botOk (s : RegState) (ch : Channel) (p : ChannelPayload) :
    BotOk s (channelUpdateState s ch p).2 := by
  unfold channelUpdateState
  split
  · exact botOk_refl s
  · exact dmChannelUpdateState_botOk s ch p
  · exact botOk_refl s
  · exact dmChannelUpdateState_botOk s ch p
  · exact botOk_refl s
  · exact botOk_refl s
  · exact botOk_refl s
  · exact botOk_refl s

theorem channelsParseChannel_botOk (s : RegState) (p : ChannelPayload) :
    BotOk s (channelsParseChannel s p).2 := by
  unfold channelsParseChannel
  split
  · split
    · split
      · exact channelUpdateState_botOk s _ p
      · split
        · exact channelUpdateState_botOk s _ p
        · exact botOk_refl s
    · exact botOk_refl s
  · exact botOk_refl s

theorem parse_channel_botOk (s : RegState) (p0 : ChannelPayload) (g : Option Nat) :
    BotOk s (parse_channel s p0 g).2 := by
  have h1 : BotOk s (get_channel_by_id s p0.id).2 := by
    obtain ⟨dm, hdm, _⟩ := get_channel_by_id_frame s p0.id
    rw [hdm]
    exact botOk_of_eq s _ rfl rfl
  unfold parse_channel
  dsimp only
  cases hg : (get_channel_by_id s p0.id).1 with
  | some ch =>
      dsimp only
      exact botOk_trans h1
        (botOk_trans (channelUpdateState_botOk _ ch (withGuildId p0 g)) (botOk_of_eq _ _ rfl rfl))
  | none =>
      dsimp only
      have h2 := channelsParseChannel_botOk ((get_channel_by_id s p0.id).2) (withGuildId p0 g)
      split
      next e s2 hc =>
        rw [hc] at h2
        exact botOk_trans h1 h2
      next ch s2 hc =>
        rw [hc] at h2
        split
        · exact botOk_trans h1 (botOk_trans h2 (botOk_of_eq _ _ rfl rfl))
        · split
          · exact botOk_trans h1 (botOk_trans h2 (botOk_of_eq _ _ rfl rfl))
          · split
            · exact botOk_trans h1 (botOk_trans h2 (botOk_of_eq _ _ rfl rfl))
            · exact botOk_trans h1 (botOk_trans h2 (botOk_of_eq _ _ rfl rfl))

theorem step_botOk (s : RegState) (op : Op) : BotOk s (step s op) := by
  cases op with
  | opParseBotUser p => exact parse_bot_user_botOk s p
  | opParseChannel p g => exact parse_channel_botOk s p g
  | opParseGuild p =>
      obtain ⟨gs, h⟩ := parse_guild_frame s p
      simp only [step]
      rw [h]
      exact botOk_of_eq s _ rfl rfl
  | opParseMember p gid =>
      obtain ⟨gs, h⟩ := parse_member_frame s p gid
      simp only [step]
      rw [h]
      exact botOk_of_eq s _ rfl rfl
  | opParseMessage p =>
      obtain ⟨chh, mh, mc, dm, h, _, _, _⟩ := parse_message_frame s p
      simp only [step]
      rw [h]
      exact botOk_of_eq s _ rfl rfl
  | opParseReaction p =>
      obtain ⟨rh, mh, nr, mc, gs, es, eh, h, _⟩ := parse_reaction_frame s p
      simp only [step]
      rw [h]
      exact botOk_of_eq s _ rfl rfl
  | opParseRole rid gid =>
      obtain ⟨gs, h⟩ := parse_role_frame s rid gid
      simp only [step]
      rw [h]
      exact botOk_of_eq s _ rfl rfl
  | opParseUser p => exact parse_user_botOk s p
  | opIncrementReaction mid e =>
      obtain ⟨rh, mh, nr, h⟩ := increment_reaction_count_frame s mid e
      simp only [step]
      rw [h]
      exact botOk_of_eq s _ rfl rfl
  | opDecrementReaction mid e =>
      obtain ⟨rh, mh, nr, h⟩ := decrement_reaction_count_frame s mid e
      simp only [step]
      rw [h]
      exact botOk_of_eq s _ rfl rfl
  | opDeleteChannel cid =>
      obtain ⟨gs, gc, dm, h, _⟩ := delete_channel_frame s cid
      simp only [step]
      rw [h]
      exact botOk_of_eq s _ rfl rfl
  | opDeleteEmoji eid egid =>
      obtain ⟨es, gs, h⟩ := delete_emoji_frame s eid egid
      simp only [step]
      rw [h]
      exact botOk_of_eq s _ rfl rfl
  | opDeleteGuild gid =>
      obtain ⟨gs, h⟩ := delete_guild_frame s gid
      simp only [step]
      rw [h]
      exact botOk_of_eq s _ rfl rfl
  | opDeleteMember uid gid =>
      obtain ⟨gs, h⟩ := delete_member_frame s uid gid
      simp only [step]
      rw [h]
      exact botOk_of_eq s _ rfl rfl
  | opDeleteMessage mid =>
      obtain ⟨mc, h, _⟩ := delete_message_frame s mid
      simp only [step]
      rw [h]
      exact botOk_of_eq s _ rfl rfl
  | opDeleteReaction mid e =>
      obtain ⟨rh, mh, nr, h⟩ := delete_reaction_frame s mid e
      simp only [step]
      rw [h]
      exact botOk_of_eq s _ rfl rfl
  | opDeleteAllReactions mid =>
      obtain ⟨rh, mh, nr, h⟩ := delete_all_reactions_frame s mid
      simp only [step]
      rw [h]
      exact botOk_of_eq s _ rfl rfl
  | opDeleteRole rid rgid =>
      obtain ⟨gs, h⟩ := delete_role_frame s rid rgid
      simp only [step]
      rw [h]
      exact botOk_of_eq s _ rfl rfl
  | opSetRolesForMember roles uid gid =>
      obtain ⟨gs, h⟩ := set_roles_for_member_frame s roles uid gid
      simp only [step]
      rw [h]
      exact botOk_of_eq s _ rfl rfl
  | opSetGuildUnavailability gid b =>
      obtain ⟨gs, h⟩ := set_guild_unavailability_frame s gid b
      simp only [step]
      rw [h]
      exact botOk_of_eq s _ rfl rfl

theorem runOps_botOk (s : RegState) (ops : List Op) : BotOk s (runOps s ops) := by
  induction ops generalizing s with
  | nil => exact botOk_refl s
  | cons op rest ih => exact botOk_trans (step_botOk s op) (ih (step s op))

/-- C8: across every sequence of registry operations at most one
`BotUser` instance is ever created (ghost creation counter at most 1
from the initial state); an existing instance is never replaced (it
survives every operation sequence unchanged in the modelled fields);
any payload with an authenticated-account-exclusive field present
(`mfa_enabled` or `verified`) or whose id matches the stored self-id is
routed by `parse_user` to the `parse_bot_user` singleton path; and
`parse_bot_user` on an existing instance updates it in place, returning
the same instance with the state's singleton slot untouched. -/
theorem bot_user_singleton :
    (∀ mc dc ops, (runOps (initState mc dc) ops).bot_users_created ≤ 1) ∧
    (∀ s ops u, s._user = some u → (runOps s ops)._user = some u) ∧
    (∀ s p, p.has_mfa_enabled = true ∨ p.has_verified = true ∨
       (∃ u, s._user = some u ∧ u.id = p.id) → parse_user s p = parse_bot_user s p) ∧
    (∀ s p u, s._user = some u → parse_bot_user s p = (u.id, s)) := by
  refine ⟨?_, ?_, ?_, ?_⟩
  · intro mc dc ops
    have h := runOps_botOk (initState mc dc) ops
    rcases h.2 rfl with ⟨_, hc⟩ | ⟨_, hc⟩
    · rw [hc]
      exact Nat.zero_le 1
    · rw [hc]
      exact Nat.le_refl 1
  · intro s ops u hu
    exact ((runOps_botOk s ops).1 u hu).1
  · intro s p hp
    have hb : isBotUserPayload s p = true := by
      unfold isBotUserPayload
      rcases hp with h | h | ⟨u, hu, hid⟩
      · rw [h]
        simp
      · rw [h]
        simp
      · rw [hu]
        dsimp only
        rw [hid]
        simp
    unfold parse_user
    rw [if_pos hb]
  · intro s p u hu
    unfold parse_bot_user
    rw [hu]

/-- Witness for C8: a first `parse_user` with an `mfa_enabled` key
creates the singleton; a later payload with a `verified` key is routed
to the singleton path, which returns the existing instance and leaves
the state unchanged; the creation counter stays at 1. -/
theorem bot_user_singleton_witness :
    (runOps (initState 2 2)
        [Op.opParseUser { id := 42, has_mfa_enabled := true, has_verified := false },
         Op.opParseUser { id := 99, has_mfa_enabled := false, has_verified := true }]
      ).bot_users_created ≤ 1 ∧
    ((parse_user (initState 2 2)
        { id := 42, has_mfa_enabled := true, has_verified := false }).2._user =
          some { id := 42, birth := 0 } →
      (runOps (parse_user (initState 2 2)
          { id := 42, has_mfa_enabled := true, has_verified := false }).2
          [Op.opParseUser { id := 99, has_mfa_enabled := false, has_verified := true }])._user =
        some { id := 42, birth := 0 }) ∧
    parse_user (parse_user (initState 2 2)
        { id := 42, has_mfa_enabled := true, has_verified := false }).2
        { id := 99, has_mfa_enabled := false, has_verified := true } =
      parse_bot_user (parse_user (initState 2 2)
        { id := 42, has_mfa_enabled := true, has_verified := false }).2
        { id := 99, has_mfa_enabled := false, has_verified := true } ∧
    parse_bot_user (parse_user (initState 2 2)
        { id := 42, has_mfa_enabled := true, has_verified := false }).2
        { id := 99, has_mfa_enabled := false, has_verified := true } =
      (42, (parse_user (initState 2 2)
        { id := 42, has_mfa_enabled := true, has_verified := false }).2) :=
  ⟨bot_user_singleton.1 2 2 _,
   fun h => bot_user_singleton.2.1 _ _ _ h,
   bot_user_singleton.2.2.1 _ _ (Or.inr (Or.inl (by decide))),
   bot_user_singleton.2.2.2 _ _ { id := 42, birth := 0 } (by decide)⟩

/-! ## Reaction counting -/

theorem cachedMessage_some (s : RegState) (mid : Nat) (m : Message)
    (h : cachedMessage s mid = some m) :
    mid ∈ s._message_cache ∧ lookupA mid s.message_heap = some m := by
  unfold cachedMessage at h
  by_cases hc : mid ∈ s._message_cache
  · rw [if_pos hc] at h
    exact ⟨hc, h⟩
  · rw [if_neg hc] at h
    cases h

theorem findMatchingRid_none (heap : List (Nat × Reaction)) (e : Emoji) (l : List Nat)
    (h : ∀ rid ∈ l, ∀ r, lookupA rid heap = some r → emojiMatch r.emoji e = false) :
    findMatchingRid heap e l = none := by
  induction l with
  | nil => rfl
  | cons rid rest ih =>
      unfold findMatchingRid
      cases hr : lookupA rid heap with
      | none => exact ih (fun rid' h' r hr' => h rid' (List.mem_cons_of_mem _ h') r hr')
      | some r =>
          simp only [h rid (List.mem_cons_self _ _) r hr, Bool.false_eq_true, if_false]
          exact ih (fun rid' h' r' hr' => h rid' (List.mem_cons_of_mem _ h') r' hr')

theorem findMatchingRid_mem (heap : List (Nat × Reaction)) (e : Emoji) (l : List Nat)
    (rid : Nat) (h : findMatchingRid heap e l = some rid) : rid ∈ l := by
  induction l with
  | nil => cases h
  | cons rid0 rest ih =>
      unfold findMatchingRid at h
      split at h
      · split at h
        · cases h
          exact List.mem_cons_self _ _
        · exact List.mem_cons_of_mem _ (ih h)
      · exact List.mem_cons_of_mem _ (ih h)

theorem findMatchingRid_hit (heap : List (Nat × Reaction)) (e : Emoji) (pre : List Nat)
    (rid : Nat) (post : List Nat) (r : Reaction)
    (hpre : ∀ rid' ∈ pre, ∀ r', lookupA rid' heap = some r' → emojiMatch r'.emoji e = false)
    (hr : lookupA rid heap = some r) (hm : emojiMatch r.emoji e = true) :
    findMatchingRid heap e (pre ++ rid :: post) = some rid := by
  induction pre with
  | nil =>
      rw [List.nil_append]
      unfold findMatchingRid
      simp only [hr, hm, if_true]
  | cons rid0 rest ih =>
      rw [List.cons_append]
      unfold findMatchingRid
      cases hr0 : lookupA rid0 heap with
      | none => exact ih (fun rid' h' r' hr' => hpre rid' (List.mem_cons_of_mem _ h') r' hr')
      | some r0 =>
          simp only [hpre rid0 (List.mem_cons_self _ _) r0 hr0, Bool.false_eq_true, if_false]
          exact ih (fun rid' h' r' hr' => hpre rid' (List.mem_cons_of_mem _ h') r' hr')

/-- C5: reaction counting.  On a cached message: incrementing with no
matching reaction appends a fresh reaction with count 1; incrementing
with a matching reaction bumps exactly that reaction's count by 1 and
leaves the message's list unchanged; decrementing with no matching
reaction returns absence and leaves the whole state unchanged;
decrementing a matching reaction lowers its count by 1, removing it
from the message's list exactly when the count reaches zero. -/
theorem reaction_count_semantics :
    (∀ (s : RegState) (mid : Nat) (e : Emoji) (m : Message),
       cachedMessage s mid = some m →
       (∀ rid ∈ m.reactions, ∀ r, lookupA rid s.reaction_heap = some r →
          emojiMatch r.emoji e = false) →
       (increment_reaction_count s mid e).1 = some s.next_rid ∧
       lookupA s.next_rid (increment_reaction_count s mid e).2.reaction_heap =
         some { count := 1, emoji := e, message_id := mid } ∧
       lookupA mid (increment_reaction_count s mid e).2.message_heap =
         some { m with reactions := m.reactions ++ [s.next_rid] }) ∧
    (∀ (s : RegState) (mid : Nat) (e : Emoji) (m : Message) (pre : List Nat) (rid : Nat)
       (post : List Nat) (r : Reaction),
       cachedMessage s mid = some m →
       m.reactions = pre ++ rid :: post →
       (∀ rid' ∈ pre, ∀ r', lookupA rid' s.reaction_heap = some r' →
          emojiMatch r'.emoji e = false) →
       lookupA rid s.reaction_heap = some r →
       emojiMatch r.emoji e = true →
       (increment_reaction_count s mid e).1 = some rid ∧
       lookupA rid (increment_reaction_count s mid e).2.reaction_heap =
         some { r with count := r.count + 1 } ∧
       (increment_reaction_count s mid e).2.message_heap = s.message_heap) ∧
    (∀ (s : RegState) (mid : Nat) (e : Emoji) (m : Message),
       cachedMessage s mid = some m →
       (∀ rid ∈ m.reactions, ∀ r, lookupA rid s.reaction_heap = some r →
          emojiMatch r.emoji e = false) →
       decrement_reaction_count s mid e = (none, s)) ∧
    (∀ (s : RegState) (mid : Nat) (e : Emoji) (m : Message) (pre : List Nat) (rid : Nat)
       (post : List Nat) (r : Reaction),
       cachedMessage s mid = some m →
       m.reactions = pre ++ rid :: post →
       (∀ rid' ∈ pre, ∀ r', lookupA rid' s.reaction_heap = some r' →
          emojiMatch r'.emoji e = false) →
       lookupA rid s.reaction_heap = some r →
       emojiMatch r.emoji e = true →
       (decrement_reaction_count s mid e).1 = some rid ∧
       lookupA rid (decrement_reaction_count s mid e).2.reaction_heap =
         some { r with count := r.count - 1 } ∧
       (r.count - 1 = 0 →
         lookupA mid (decrement_reaction_count s mid e).2.message_heap =
           some { m with reactions := m.reactions.erase rid }) ∧
       (r.count - 1 ≠ 0 →
         (decrement_reaction_count s mid e).2.message_heap = s.message_heap)) := by
  refine ⟨?_, ?_, ?_, ?_⟩
  · intro s mid e m hm hnone
    have hfind : findMatchingRid s.reaction_heap e m.reactions = none :=
      findMatchingRid_none _ _ _ hnone
    unfold increment_reaction_count
    rw [hm]
    simp only [hfind]
    refine ⟨trivial, lookupA_insertA_self _ _ _, ?_⟩
    rw [lookupA_updateA_self, (cachedMessage_some s mid m hm).2]
    rfl
  · intro s mid e m pre rid post r hm hsplit hpre hr hmatch
    have hfind : findMatchingRid s.reaction_heap e m.reactions = some rid := by
      rw [hsplit]
      exact findMatchingRid_hit _ _ pre rid post r hpre hr hmatch
    unfold increment_reaction_count
    rw [hm]
    simp only [hfind]
    refine ⟨trivial, ?_, trivial⟩
    rw [lookupA_updateA_self, hr]
    rfl
  · intro s mid e m hm hnone
    have hfind : findMatchingRid s.reaction_heap e m.reactions = none :=
      findMatchingRid_none _ _ _ hnone
    unfold decrement_reaction_count
    rw [hm]
    simp only [hfind]
  · intro s mid e m pre rid post r hm hsplit hpre hr hmatch
    have hfind : findMatchingRid s.reaction_heap e m.reactions = some rid := by
      rw [hsplit]
      exact findMatchingRid_hit _ _ pre rid post r hpre hr hmatch
    have hl : lookupA rid (updateA rid (fun r0 => { r0 with count := r0.count - 1 })
        s.reaction_heap) = some { r with count := r.count - 1 } := by
      rw [lookupA_updateA_self, hr]
      rfl
    unfold decrement_reaction_count
    rw [hm]
    simp only [hfind, hl]
    by_cases hz : r.count - 1 = 0
    · have hbeq : (r.count - 1 == 0) = true := by
        rw [hz]
        rfl
      simp only [hbeq, if_true]
      refine ⟨trivial, trivial, fun _ => ?_, fun hnz => absurd hz hnz⟩
      rw [lookupA_updateA_self, (cachedMessage_some s mid m hm).2]
      rfl
    · have hbeq : (r.count - 1 == 0) = false := by
        rw [beq_eq_false_iff_ne]
        exact hz
      simp only [hbeq, Bool.false_eq_true, if_false]
      exact ⟨trivial, trivial, fun h0 => absurd h0 hz, fun _ => trivial⟩

/-! ## Concrete fixtures for witnesses and counterexamples -/

/-- A concrete DM-channel payload with id 5 and discriminant 1. -/
def dmPayload5 : ChannelPayload :=
  { id := 5, type := some 1, guild_id := none, name := none, position := none,
    parent_id := none, permission_overwrites := [], nsfw := none, topic := none,
    rate_limit_per_user := none, last_message_id := none, recipients := [], icon := none,
    owner_id := none, application_id := none, bitrate := none, user_limit := none }

/-- A registry with DM channel 5 cached. -/
def stateWithDm5 : RegState := (parse_channel (initState 2 2) dmPayload5 none).2

/-- The channel value cached under id 5 in `stateWithDm5`. -/
def chDm5 : Channel := blankChannel 5 1 none

/-- A registry with DM channel 5 and cached message 1. -/
def msgState : RegState :=
  (parse_message stateWithDm5 { id := 1, channel_id := 5 }).2

/-- The emoji used by witnesses. -/
def emoji9 : Emoji := { eid := some 9, name := 4, guild_id := none }

/-- Witness for C10: parsing message 9 into cached DM channel 5 returns
the message id and rewrites the channel's `last_message_id` to 9. -/
theorem parse_message_sets_last_message_id_witness :
    (parse_message stateWithDm5 { id := 9, channel_id := 5 }).1 = some 9 ∧
    lookupA 5 (parse_message stateWithDm5 { id := 9, channel_id := 5 }).2.channel_heap =
      some { chDm5 with last_message_id := some 9 } :=
  parse_message_sets_last_message_id stateWithDm5 { id := 9, channel_id := 5 } chDm5 (by decide)

/-- Witness for C5: incrementing a reaction on cached message 1 with no
existing reactions appends a fresh reaction with count 1. -/
theorem reaction_count_semantics_witness :
    (increment_reaction_count msgState 1 emoji9).1 = some msgState.next_rid ∧
    lookupA msgState.next_rid (increment_reaction_count msgState 1 emoji9).2.reaction_heap =
      some { count := 1, emoji := emoji9, message_id := 1 } ∧
    lookupA 1 (increment_reaction_count msgState 1 emoji9).2.message_heap =
      some { id := 1, channel_id := 5, reactions := [] ++ [msgState.next_rid] } :=
  reaction_count_semantics.1 msgState 1 emoji9 { id := 1, channel_id := 5, reactions := [] }
    (by decide) (fun rid h => absurd h (List.not_mem_nil rid))

/-! ## Idempotent deletes -/

/-- Counterexample for C7: `delete_emoji` on an emoji absent from every
registry collection whose owning guild is also not cached raises an
attribute error (`emoji_obj.guild` is `None`, and `None.emojis` is not
covered by the `suppress(KeyError)` block), rather than being a no-op. -/
theorem delete_absent_emoji_raises :
    delete_emoji (initState 2 2) 7 1 = (Except.error RegErr.attributeError, initState 2 2) := by
  rfl

/-- C7 (amended): deleting an entity absent from every registry
collection is a no-op that raises nothing for channels, guilds,
messages, members, and for emojis and roles whose owning guild is
cached; but `delete_emoji` and `delete_role` on an entity whose owning
guild is itself not cached raise an attribute error (leaving the state
unchanged). -/
theorem delete_absent_noop :
    (∀ (s : RegState) (cid : Nat), cid ∉ s._guild_channels → cid ∉ s._dm_channels →
       delete_channel s cid = (Except.ok (), s)) ∧
    (∀ (s : RegState) (gid : Nat), lookupA gid s._guilds = none → delete_guild s gid = s) ∧
    (∀ (s : RegState) (mid : Nat), mid ∉ s._message_cache → delete_message s mid = s) ∧
    (∀ (s : RegState) (uid gid : Nat), lookupA gid s._guilds = none →
       delete_member s uid gid = s) ∧
    (∀ (s : RegState) (uid gid : Nat) (g : Guild), lookupA gid s._guilds = some g →
       lookupA uid g.members = none → delete_member s uid gid = s) ∧
    (∀ (s : RegState) (eid egid : Nat) (g : Guild), eid ∉ s._emojis →
       lookupA egid s._guilds = some g → eid ∉ g.emojis →
       delete_emoji s eid egid = (Except.ok (), s)) ∧
    (∀ (s : RegState) (rid rgid : Nat) (g : Guild), lookupA rgid s._guilds = some g →
       lookupA rid g.roles = none → delete_role s rid rgid = (Except.ok (), s)) ∧
    (∀ (s : RegState) (eid egid : Nat), eid ∉ s._emojis → lookupA egid s._guilds = none →
       delete_emoji s eid egid = (Except.error RegErr.attributeError, s)) ∧
    (∀ (s : RegState) (rid rgid : Nat), lookupA rgid s._guilds = none →
       delete_role s rid rgid = (Except.error RegErr.attributeError, s)) := by
  refine ⟨?_, ?_, ?_, ?_, ?_, ?_, ?_, ?_, ?_⟩
  · intro s cid h1 h2
    unfold delete_channel
    rw [if_neg h1, if_neg h2]
  · intro s gid h
    unfold delete_guild
    rw [removeA_of_lookup_none _ _ h]
  · intro s mid h
    unfold delete_message
    rw [if_neg h]
  · intro s uid gid h
    unfold delete_member
    rw [h]
  · intro s uid gid g hg hm
    unfold delete_member
    rw [hg]
    dsimp only
    have hup : updateA gid (fun g0 => { g0 with members := removeA uid g0.members })
        s._guilds = s._guilds := by
      apply updateA_congr_self
      intro v hv
      rw [hg] at hv
      have hgv : g = v := Option.some.inj hv
      subst hgv
      rw [removeA_of_lookup_none _ _ hm]
    rw [hup]
  · intro s eid egid g he hg hge
    unfold delete_emoji
    dsimp only
    rw [List.erase_of_not_mem he, hg]
    dsimp only
    have hup : updateA egid (fun g0 => { g0 with emojis := g0.emojis.erase eid })
        s._guilds = s._guilds := by
      apply updateA_congr_self
      intro v hv
      rw [hg] at hv
      have hgv : g = v := Option.some.inj hv
      subst hgv
      rw [List.erase_of_not_mem hge]
    rw [hup]
  · intro s rid rgid g hg hr
    unfold delete_role
    rw [hg]
    dsimp only
    rw [hr]
    rfl
  · intro s eid egid he hg
    unfold delete_emoji
    dsimp only
    rw [List.erase_of_not_mem he, hg]
  · intro s rid rgid h
    unfold delete_role
    rw [h]

/-- A guild with no children, cached under id 1. -/
def emptyGuild1 : Guild :=
  { id := 1, unavailable := false, channels := [], roles := [], members := [], emojis := [] }

/-- A registry caching only the empty guild 1. -/
def stateC7 : RegState := { initState 2 2 with _guilds := [(1, emptyGuild1)] }

/-- Witness for C7 (amended): the no-op branches and the raising
branches, each at a concrete absent entity. -/
theorem delete_absent_noop_witness :
    delete_channel (initState 2 2) 9 = (Except.ok (), initState 2 2) ∧
    delete_guild (initState 2 2) 9 = initState 2 2 ∧
    delete_message (initState 2 2) 9 = initState 2 2 ∧
    delete_member (initState 2 2) 9 1 = initState 2 2 ∧
    delete_member stateC7 9 1 = stateC7 ∧
    delete_emoji stateC7 7 1 = (Except.ok (), stateC7) ∧
    delete_role stateC7 9 1 = (Except.ok (), stateC7) ∧
    delete_emoji (initState 2 2) 7 1 = (Except.error RegErr.attributeError, initState 2 2) ∧
    delete_role (initState 2 2) 9 1 = (Except.error RegErr.attributeError, initState 2 2) :=
  ⟨delete_absent_noop.1 _ 9 (by decide) (by decide),
   delete_absent_noop.2.1 _ 9 (by decide),
   delete_absent_noop.2.2.1 _ 9 (by decide),
   delete_absent_noop.2.2.2.1 _ 9 1 (by decide),
   delete_absent_noop.2.2.2.2.1 _ 9 1 emptyGuild1 (by decide) (by decide),
   delete_absent_noop.2.2.2.2.2.1 _ 7 1 emptyGuild1 (by decide) (by decide) (by decide),
   delete_absent_noop.2.2.2.2.2.2.1 _ 9 1 emptyGuild1 (by decide) (by decide),
   delete_absent_noop.2.2.2.2.2.2.2.1 _ 7 1 (by decide) (by decide),
   delete_absent_noop.2.2.2.2.2.2.2.2 _ 9 1 (by decide)⟩

/-! ## Cascading role delete -/

theorem lookupA_eq_none_of_not_mem_keys (k : Nat) (l : List (Nat × α))
    (h : k ∉ l.map Prod.fst) : lookupA k l = none := by
  induction l with
  | nil => rfl
  | cons hd tl ih =>
      obtain ⟨a, v⟩ := hd
      simp only [List.map_cons, List.mem_cons] at h
      push_neg at h
      unfold lookupA
      rw [if_neg (fun hh => h.1 hh.symm)]
      exact ih h.2

theorem lookupA_removeA_self (k : Nat) (l : List (Nat × α))
    (hnd : (l.map Prod.fst).Nodup) : lookupA k (removeA k l) = none := by
  induction l with
  | nil => rfl
  | cons hd tl ih =>
      obtain ⟨a, v⟩ := hd
      simp only [List.map_cons, List.nodup_cons] at hnd
      by_cases ha : a = k
      · subst ha
        unfold removeA
        rw [if_pos rfl]
        exact lookupA_eq_none_of_not_mem_keys _ _ hnd.1
      · unfold removeA
        rw [if_neg ha]
        unfold lookupA
        rw [if_neg ha]
        exact ih hnd.2

theorem lookupA_map_member (k rid : Nat) (l : List (Nat × Member)) :
    lookupA k (l.map (fun um => (um.1, { um.2 with roles := um.2.roles.erase rid }))) =
      (lookupA k l).map (fun m => { m with roles := m.roles.erase rid }) := by
  induction l with
  | nil => rfl
  | cons hd tl ih =>
      obtain ⟨a, v⟩ := hd
      by_cases h : a = k <;> simp [lookupA, h, ih]

/-- A guild whose role table does not contain role 10 while member 100
still holds it. -/
def guildC2 : Guild :=
  { id := 1, unavailable := false, channels := [], roles := [],
    members := [(100, { roles := [10], nick := none })], emojis := [] }

/-- A registry caching only `guildC2`. -/
def stateC2 : RegState := { initState 2 2 with _guilds := [(1, guildC2)] }

/-- Counterexample for C2: role 10 is absent from guild 1's role table
but member 100 still holds it; `delete_role` returns successfully yet
leaves the whole registry unchanged — the member clean-up loop inside
the `suppress(KeyError)` block never runs (lines 176-187). -/
theorem delete_role_skips_cleanup_counterexample :
    lookupA 10 guildC2.roles = none ∧
    lookupA 100 guildC2.members = some { roles := [10], nick := none } ∧
    (10 : Nat) ∈ ({ roles := [10], nick := none } : Member).roles ∧
    (delete_role stateC2 10 1).1 = Except.ok () ∧
    (delete_role stateC2 10 1).2 = stateC2 :=
  ⟨rfl, rfl, by decide, rfl, rfl⟩

/-- C2 (amended): when the guild's role table does contain role R,
`delete_role` removes R from the table and erases R from the
role-reference list of every member of the guild (members without R
are untouched); when the table does not contain R, `delete_role` is a
complete no-op — the member clean-up does not execute even for members
that still hold R. -/
theorem delete_role_cascade (s : RegState) (rid gid : Nat) (g : Guild)
    (hg : lookupA gid s._guilds = some g) :
    ((lookupA rid g.roles).isSome = true →
       (delete_role s rid gid).1 = Except.ok () ∧
       ∃ g', lookupA gid (delete_role s rid gid).2._guilds = some g' ∧
         g'.roles = removeA rid g.roles ∧
         ((g.roles.map Prod.fst).Nodup → lookupA rid g'.roles = none) ∧
         (∀ uid m, lookupA uid g.members = some m →
           ∃ m', lookupA uid g'.members = some m' ∧
             m'.roles = m.roles.erase rid ∧ m'.nick = m.nick ∧
             (rid ∉ m.roles → m' = m) ∧
             (m.roles.count rid ≤ 1 → rid ∉ m'.roles))) ∧
    (lookupA rid g.roles = none → delete_role s rid gid = (Except.ok (), s)) := by
  constructor
  · intro hsome
    unfold delete_role
    rw [hg]
    dsimp only
    rw [if_pos hsome]
    refine ⟨rfl, ?_⟩
    refine ⟨{ g with
              roles := removeA rid g.roles,
              members := (g.members.map
                (fun um => (um.1, { um.2 with roles := um.2.roles.erase rid }))) },
            ?_, rfl, ?_, ?_⟩
    · dsimp only
      rw [lookupA_updateA_self, hg]
      rfl
    · intro hnd
      exact lookupA_removeA_self rid g.roles hnd
    · intro uid m hm
      refine ⟨{ m with roles := m.roles.erase rid }, ?_, rfl, rfl, ?_, ?_⟩
      · dsimp only
        rw [lookupA_map_member, hm]
        rfl
      · intro hnot
        rw [List.erase_of_not_mem hnot]
      · intro hcount
        dsimp only
        rw [← List.count_eq_zero, List.count_erase_self]
        omega
  · intro hnone
    unfold delete_role
    rw [hg]
    dsimp only
    rw [hnone]
    rfl

/-- A guild with role 10 held by member 100 but not member 200. -/
def guildC2w : Guild :=
  { id := 1, unavailable := false, channels := [],
    roles := [(10, { id := 10, guild_id := 1 })],
    members := [(100, { roles := [10], nick := none }), (200, { roles := [], nick := none })],
    emojis := [] }

/-- A registry caching only `guildC2w`. -/
def stateC2w : RegState := { initState 2 2 with _guilds := [(1, guildC2w)] }

/-- Witness for C2 (amended): deleting role 10 from a guild that holds
it strips it from the role table and from member 100's list while
member 200 is untouched. -/
theorem delete_role_cascade_witness :
    (delete_role stateC2w 10 1).1 = Except.ok () ∧
    ∃ g', lookupA 1 (delete_role stateC2w 10 1).2._guilds = some g' ∧
      g'.roles = removeA 10 guildC2w.roles ∧
      ((guildC2w.roles.map Prod.fst).Nodup → lookupA 10 g'.roles = none) ∧
      (∀ uid m, lookupA uid guildC2w.members = some m →
        ∃ m', lookupA uid g'.members = some m' ∧
          m'.roles = m.roles.erase 10 ∧ m'.nick = m.nick ∧
          (10 ∉ m.roles → m' = m) ∧
          (m.roles.count 10 ≤ 1 → 10 ∉ m'.roles)) :=
  (delete_role_cascade stateC2w 10 1 guildC2w (by decide)).1 (by decide)

/-! ## Unknown channel discriminants -/

theorem withGuildId_type (p : ChannelPayload) (g : Option Nat) :
    (withGuildId p g).type = p.type := by
  cases g <;> rfl

/-- Counterexample for C3: with DM channel 5 already cached, a payload
with id 5 and unknown discriminant 99 does not raise — `parse_channel`
takes the update path, ignoring the discriminant entirely, and returns
the cached channel. -/
theorem parse_channel_unknown_type_counterexample :
    (99 : Nat) ∉ channel_implementations ∧
    (parse_channel stateWithDm5 { dmPayload5 with type := some 99 } none).1 = Except.ok 5 :=
  ⟨by decide, rfl⟩

/-- C3 (amended): when the payload's id is not already cached, an
unknown (or missing) kind discriminant makes `parse_channel` propagate
the `TypeError` of `channels.parse_channel` (the spec's
`InvalidPayload`) and leaves the registry state literally unchanged, so
no entity of the payload is registered in any collection; when the id
is already cached the payload is applied to the existing channel
without any discriminant check. -/
theorem parse_channel_unknown_type (s : RegState) (p : ChannelPayload) (g : Option Nat)
    (hfresh : (get_channel_by_id s p.id).1 = none)
    (hunknown : ∀ t, p.type = some t → t ∉ channel_implementations) :
    parse_channel s p g = (Except.error RegErr.invalidChannelType, s) := by
  have hs : (get_channel_by_id s p.id).2 = s := by
    rw [get_channel_by_id_miss s p.id hfresh]
  have hcp : channelsParseChannel s (withGuildId p g) =
      (Except.error RegErr.invalidChannelType, s) := by
    unfold channelsParseChannel
    cases ht : (withGuildId p g).type with
    | none => rfl
    | some t =>
        have ht' : p.type = some t := by
          rw [← withGuildId_type p g]
          exact ht
        dsimp only
        rw [if_neg (hunknown t ht')]
  unfold parse_channel
  dsimp only
  rw [hfresh]
  dsimp only
  rw [hs, hcp]

/-- Witness for C3 (amended): a fresh payload with discriminant 99 is
rejected with the state unchanged. -/
theorem parse_channel_unknown_type_witness :
    parse_channel (initState 2 2) { dmPayload5 with id := 8, type := some 99 } none =
      (Except.error RegErr.invalidChannelType, initState 2 2) :=
  parse_channel_unknown_type (initState 2 2) { dmPayload5 with id := 8, type := some 99 } none
    (by decide)
    (fun t ht => by
      have h99 : 99 = t := Option.some.inj ht
      rw [← h99]
      decide)

/-! ## Two-view consistency of guild channels -/

theorem lookupA_insertA_isSome (k c : Nat) (v : α) (l : List (Nat × α))
    (h : (lookupA c l).isSome = true) : (lookupA c (insertA k v l)).isSome = true := by
  by_cases hc : c = k
  · subst hc
    rw [lookupA_insertA_self]
    rfl
  · rw [lookupA_insertA_ne _ _ _ _ (fun hh => hc hh.symm)]
    exact h

theorem mem_updateA_self (k : Nat) (f : α → α) (l : List (Nat × α)) (v : α)
    (h : lookupA k l = some v) : (k, f v) ∈ updateA k f l := by
  induction l with
  | nil => cases h
  | cons hd tl ih =>
      obtain ⟨a, w⟩ := hd
      by_cases ha : a = k
      · subst ha
        unfold lookupA at h
        rw [if_pos rfl] at h
        have hwv : w = v := Option.some.inj h
        subst hwv
        unfold updateA
        rw [if_pos rfl]
        exact List.mem_cons_self _ _
      · unfold lookupA at h
        rw [if_neg ha] at h
        unfold updateA
        rw [if_neg ha]
        exact List.mem_cons_of_mem _ (ih h)

theorem updateA_channels_cover (k : Nat) (f : Guild → Guild)
    (hf : ∀ g, ∀ c ∈ g.channels, c ∈ (f g).channels)
    (l : List (Nat × Guild)) (y : Nat × Guild) (hy : y ∈ l) :
    ∃ x ∈ updateA k f l, ∀ c ∈ y.2.channels, c ∈ x.2.channels := by
  induction l with
  | nil => cases hy
  | cons hd tl ih =>
      obtain ⟨a, w⟩ := hd
      by_cases ha : a = k
      · unfold updateA
        rw [if_pos ha]
        rcases List.mem_cons.mp hy with rfl | hy'
        · exact ⟨(a, f w), List.mem_cons_self _ _, fun c hc => hf w c hc⟩
        · exact ⟨y, List.mem_cons_of_mem _ hy', fun c hc => hc⟩
      · unfold updateA
        rw [if_neg ha]
        rcases List.mem_cons.mp hy with rfl | hy'
        · exact ⟨(a, w), List.mem_cons_self _ _, fun c hc => hc⟩
        · obtain ⟨x, hx, hsub⟩ := ih hy'
          exact ⟨x, List.mem_cons_of_mem _ hx, hsub⟩

theorem mem_updateA_inv (k : Nat) (f : α → α) (l : List (Nat × α)) (x : Nat × α)
    (hx : x ∈ updateA k f l) : x ∈ l ∨ ∃ y ∈ l, x = (y.1, f y.2) := by
  induction l with
  | nil => cases hx
  | cons hd tl ih =>
      obtain ⟨a, w⟩ := hd
      by_cases ha : a = k
      · rw [updateA, if_pos ha] at hx
        rcases List.mem_cons.mp hx with rfl | hx'
        · exact Or.inr ⟨(a, w), List.mem_cons_self _ _, rfl⟩
        · exact Or.inl (List.mem_cons_of_mem _ hx')
      · rw [updateA, if_neg ha] at hx
        rcases List.mem_cons.mp hx with rfl | hx'
        · exact Or.inl (List.mem_cons_self _ _)
        · rcases ih hx' with h | ⟨y, hy, hxy⟩
          · exact Or.inl (List.mem_cons_of_mem _ h)
          · exact Or.inr ⟨y, List.mem_cons_of_mem _ hy, hxy⟩

theorem channelsParseChannel_no_attr (s : RegState) (p : ChannelPayload) :
    (channelsParseChannel s p).1 ≠ Except.error RegErr.attributeError := by
  unfold channelsParseChannel
  split
  · split
    · split
      · intro h
        simp at h
      · split
        · intro h
          simp at h
        · intro h
          simp at h
    · intro h
      simp at h
  · intro h
    simp at h

theorem get_channel_by_id_none_not_mem (s : RegState) (cid : Nat)
    (hwf1 : ∀ c ∈ s._guild_channels, (lookupA c s.channel_heap).isSome = true)
    (h : (get_channel_by_id s cid).1 = none) : cid ∉ s._guild_channels := by
  intro hmem
  obtain ⟨ch, hch⟩ := Option.isSome_iff_exists.mp (hwf1 cid hmem)
  unfold get_channel_by_id at h
  rw [if_pos hmem, hch] at h
  simp at h

/-- The two-view consistency invariant of §3 of the spec: every entry
of the flat weak guild-channel index is backed by the channel heap and
by some cached guild's channel collection, and every channel of every
cached guild appears in the flat index. -/
def ChannelViewsWF (s : RegState) : Prop :=
  (∀ cid ∈ s._guild_channels, (lookupA cid s.channel_heap).isSome = true) ∧
  (∀ cid ∈ s._guild_channels, ∃ gd ∈ s._guilds, cid ∈ gd.2.channels) ∧
  (∀ gd ∈ s._guilds, ∀ cid ∈ gd.2.channels, cid ∈ s._guild_channels)

/-- A guild-text payload (discriminant 0) for channel 7 of guild 1. -/
def guildTextPayload7 : ChannelPayload :=
  { id := 7, type := some 0, guild_id := some 1, name := some 3, position := some 0,
    parent_id := none, permission_overwrites := [], nsfw := none, topic := none,
    rate_limit_per_user := none, last_message_id := none, recipients := [], icon := none,
    owner_id := none, application_id := none, bitrate := none, user_limit := none }

/-- Counterexample for C1: parsing a guild-text payload (discriminant
0) for channel 7 of guild 1 into a registry that does not cache guild 1
terminates with an attribute error, and afterwards channel 7 is in the
flat weak channel index while no guild collection exists at all — the
channel is observable in exactly one of the two views. -/
theorem parse_channel_two_view_counterexample :
    (parse_channel (initState 2 2) guildTextPayload7 none).1 =
      Except.error RegErr.attributeError ∧
    7 ∈ (parse_channel (initState 2 2) guildTextPayload7 none).2._guild_channels ∧
    (parse_channel (initState 2 2) guildTextPayload7 none).2._guilds = [] :=
  ⟨rfl, by decide, rfl⟩

/-- C1 (amended): from any state satisfying the two-view invariant, a
`parse_channel` call that completes successfully re-establishes the
invariant (a guild-kind channel lands in both its guild's collection
and the flat index, a DM or updated channel touches neither view
inconsistently); but a call that terminates with the attribute error
(the payload's guild is not cached) leaves the new channel in the flat
weak index and in no guild's channel collection. -/
theorem parse_channel_two_view_atomicity (s : RegState) (p : ChannelPayload)
    (gp : Option Nat) (hwf : ChannelViewsWF s) :
    (∀ v, (parse_channel s p gp).1 = Except.ok v →
       ChannelViewsWF (parse_channel s p gp).2) ∧
    ((parse_channel s p gp).1 = Except.error RegErr.attributeError →
       p.id ∈ (parse_channel s p gp).2._guild_channels ∧
       ∀ gd ∈ (parse_channel s p gp).2._guilds, p.id ∉ gd.2.channels) := by
  obtain ⟨hwf1, hwf2, hwf3⟩ := hwf
  unfold parse_channel
  dsimp only
  cases hg : (get_channel_by_id s p.id).1 with
  | some ch =>
      dsimp only
      obtain ⟨dm1, h1, _⟩ := get_channel_by_id_frame s p.id
      obtain ⟨us2, u2, bc2, h2⟩ :=
        channelUpdateState_frame ((get_channel_by_id s p.id).2) ch (withGuildId p gp)
      rw [h2, h1]
      dsimp only
      constructor
      · intro v _
        refine ⟨?_, ?_, ?_⟩
        · intro c hc
          exact lookupA_insertA_isSome _ _ _ _ (hwf1 c hc)
        · intro c hc
          exact hwf2 c hc
        · intro gd hgd c hc
          exact hwf3 gd hgd c hc
      · intro hv
        simp at hv
  | none =>
      dsimp only
      obtain ⟨dm1, h1, _⟩ := get_channel_by_id_frame s p.id
      obtain ⟨us2, u2, bc2, h2⟩ :=
        channelsParseChannel_frame ((get_channel_by_id s p.id).2) (withGuildId p gp)
      have hnotmem : p.id ∉ s._guild_channels := get_channel_by_id_none_not_mem s p.id hwf1 hg
      split
      next e s2 hc =>
        rw [hc] at h2
        dsimp only at h2
        rw [h1] at h2
        dsimp only at h2
        constructor
        · intro v hv
          simp at hv
        · intro hv
          dsimp only at hv
          have he : e = RegErr.attributeError := by
            injection hv
          exfalso
          apply channelsParseChannel_no_attr ((get_channel_by_id s p.id).2) (withGuildId p gp)
          rw [hc, he]
      next ch s2 hc =>
        rw [hc] at h2
        dsimp only at h2
        rw [h1] at h2
        dsimp only at h2
        rw [h2]
        dsimp only
        rw [if_neg hnotmem]
        split
        · -- DM routing: both views untouched
          constructor
          · intro v _
            refine ⟨?_, ?_, ?_⟩
            · intro c hc'
              exact lookupA_insertA_isSome _ _ _ _ (hwf1 c hc')
            · intro c hc'
              exact hwf2 c hc'
            · intro gd hgd c hc'
              exact hwf3 gd hgd c hc'
          · intro hv
            simp at hv
        · cases hgid : ch.guild_id with
          | none =>
            -- attribute error with the flat index grown
            dsimp only
            constructor
            · intro v hv
              simp at hv
            · intro _
              refine ⟨List.mem_append_right _ (List.mem_singleton.mpr rfl), ?_⟩
              intro gd hgd hmem
              exact hnotmem (hwf3 gd hgd p.id hmem)
          | some gid =>
            dsimp only
            cases heq : lookupA gid s._guilds with
            | none =>
              -- guild not cached: attribute error with the flat index grown
              dsimp only
              constructor
              · intro v hv
                simp at hv
              · intro _
                refine ⟨List.mem_append_right _ (List.mem_singleton.mpr rfl), ?_⟩
                intro gd hgd hmem
                exact hnotmem (hwf3 gd hgd p.id hmem)
            | some g =>
              -- guild cached: success, both views updated
              dsimp only
              constructor
              · intro v _
                refine ⟨?_, ?_, ?_⟩
                · intro c hc'
                  rcases List.mem_append.mp hc' with hcl | hcr
                  · exact lookupA_insertA_isSome _ _ _ _ (hwf1 c hcl)
                  · rw [List.mem_singleton.mp hcr, lookupA_insertA_self]
                    rfl
                · intro c hc'
                  rcases List.mem_append.mp hc' with hcl | hcr
                  · obtain ⟨gd, hgd, hcg⟩ := hwf2 c hcl
                    obtain ⟨x, hx, hsub⟩ := updateA_channels_cover gid
                      (fun g0 => { g0 with channels :=
                        if p.id ∈ g0.channels then g0.channels else g0.channels ++ [p.id] })
                      (fun g0 c0 hc0 => by
                        dsimp only
                        by_cases hp : p.id ∈ g0.channels
                        · rw [if_pos hp]
                          exact hc0
                        · rw [if_neg hp]
                          exact List.mem_append_left _ hc0) s._guilds gd hgd
                    exact ⟨x, hx, hsub c hcg⟩
                  · rw [List.mem_singleton.mp hcr]
                    refine ⟨(gid, { g with channels :=
                      if p.id ∈ g.channels then g.channels else g.channels ++ [p.id] }),
                      mem_updateA_self gid _ _ g heq, ?_⟩
                    by_cases hp : p.id ∈ g.channels
                    · rw [if_pos hp]
                      exact hp
                    · rw [if_neg hp]
                      exact List.mem_append_right _ (List.mem_singleton.mpr rfl)
                · intro gd hgd c hc'
                  rcases mem_updateA_inv gid _ _ gd hgd with hold | ⟨y, hy, hxy⟩
                  · exact List.mem_append_left _ (hwf3 gd hold c hc')
                  · rw [hxy] at hc'
                    dsimp only at hc'
                    by_cases hp : p.id ∈ y.2.channels
                    · rw [if_pos hp] at hc'
                      exact List.mem_append_left _ (hwf3 y hy c hc')
                    · rw [if_neg hp] at hc'
                      rcases List.mem_append.mp hc' with hcl | hcr
                      · exact List.mem_append_left _ (hwf3 y hy c hcl)
                      · rw [List.mem_singleton.mp hcr]
                        exact List.mem_append_right _ (List.mem_singleton.mpr rfl)
              · intro hv
                simp at hv

/-! ## Reaction-count invariant -/

/-- The reaction bookkeeping of the heap messages: every heap message
carries its own key, keeps a duplicate-free reaction list, and every
reaction key in a message's list is a past allocation whose heap entry
(when present) has count at least 1 and points back at the owning
message. -/
def ReactInv (s : RegState) : Prop :=
  (∀ mid m, lookupA mid s.message_heap = some m → m.id = mid) ∧
  (∀ mid m, lookupA mid s.message_heap = some m → m.reactions.Nodup) ∧
  (∀ mid m, lookupA mid s.message_heap = some m → ∀ rid ∈ m.reactions,
    rid < s.next_rid ∧
    ∀ r, lookupA rid s.reaction_heap = some r → 1 ≤ r.count ∧ r.message_id = mid)

theorem reactInv_of_eq (s t : RegState) (hm : t.message_heap = s.message_heap)
    (hr : t.reaction_heap = s.reaction_heap) (hn : t.next_rid = s.next_rid)
    (h : ReactInv s) : ReactInv t := by
  unfold ReactInv at h ⊢
  rw [hm, hr, hn]
  exact h

theorem reactInv_init (mc dc : Nat) : ReactInv (initState mc dc) := by
  refine ⟨?_, ?_, ?_⟩ <;> (intro mid m hm; simp [initState, lookupA] at hm)

/-- The find loop only returns keys whose heap entry exists and matches. -/
theorem findMatchingRid_lookup (heap : List (Nat × Reaction)) (e : Emoji) (l : List Nat)
    (rid : Nat) (h : findMatchingRid heap e l = some rid) :
    ∃ r, lookupA rid heap = some r ∧ emojiMatch r.emoji e = true := by
  induction l with
  | nil => cases h
  | cons rid0 rest ih =>
      unfold findMatchingRid at h
      split at h
      next r heq =>
        split at h
        next hm =>
          cases h
          exact ⟨r, heq, hm⟩
        next hm => exact ih h
      next heq => exact ih h

/-- Folding the count-zeroing update over a key list rewrites exactly the
listed keys' entries. -/
theorem lookupA_foldl_zero (l : List Nat) (heap : List (Nat × Reaction)) (rid : Nat) :
    lookupA rid (l.foldl (fun h0 rid0 =>
        updateA rid0 (fun r => { r with count := 0 }) h0) heap) =
      if rid ∈ l then (lookupA rid heap).map (fun r => { r with count := 0 })
      else lookupA rid heap := by
  induction l generalizing heap with
  | nil => simp
  | cons a tl ih =>
      rw [List.foldl_cons, ih]
      by_cases hmem : rid ∈ tl
      · rw [if_pos hmem, if_pos (List.mem_cons_of_mem a hmem), lookupA_updateA]
        by_cases ha : a = rid
        · rw [if_pos ha]
          cases lookupA rid heap with
          | none => rfl
          | some r0 => rfl
        · rw [if_neg ha]
      · rw [if_neg hmem, lookupA_updateA]
        by_cases ha : a = rid
        · rw [if_pos ha, if_pos (by rw [← ha]; exact List.mem_cons_self a tl)]
        · rw [if_neg ha, if_neg (by
            intro hc
            rcases List.mem_cons.mp hc with h1 | h2
            · exact ha h1.symm
            · exact hmem h2)]

/-- Rewriting counts of listed reactions with a positivity-preserving
function preserves the invariant. -/
theorem reactInv_updateA_count (s : RegState) (h : ReactInv s) (rid0 : Nat) (f : Int → Int)
    (hf : ∀ c : Int, 1 ≤ c → 1 ≤ f c) :
    ReactInv { s with
      reaction_heap :=
        (updateA rid0 (fun r => { r with count := f r.count }) s.reaction_heap) } := by
  unfold ReactInv
  dsimp only
  refine ⟨h.1, h.2.1, ?_⟩
  intro mid m hm rid hrid
  obtain ⟨hlt, hb⟩ := h.2.2 mid m hm rid hrid
  refine ⟨hlt, ?_⟩
  intro r hrr
  rw [lookupA_updateA] at hrr
  by_cases he : rid0 = rid
  · rw [if_pos he] at hrr
    cases hl : lookupA rid s.reaction_heap with
    | none => rw [hl] at hrr; cases hrr
    | some r0 =>
        rw [hl] at hrr
        obtain ⟨hc0, hm0⟩ := hb r0 hl
        have hv : { r0 with count := f r0.count } = r := Option.some.inj hrr
        rw [← hv]
        exact ⟨hf r0.count hc0, hm0⟩
  · rw [if_neg he] at hrr
    exact hb r hrr

/-- Appending a freshly allocated reaction with positive count to a heap
message preserves the invariant. -/
theorem reactInv_append_fresh (s : RegState) (h : ReactInv s) (mid : Nat) (m : Message)
    (hgm : lookupA mid s.message_heap = some m) (e : Emoji) (cnt : Int) (hcnt : 1 ≤ cnt) :
    ReactInv { s with
      reaction_heap :=
        insertA s.next_rid { count := cnt, emoji := e, message_id := mid } s.reaction_heap
      message_heap :=
        updateA mid (fun m0 => { m0 with reactions := m0.reactions ++ [s.next_rid] })
          s.message_heap
      next_rid := s.next_rid + 1 } := by
  have hfresh : s.next_rid ∉ m.reactions := fun hmem =>
    absurd (h.2.2 mid m hgm s.next_rid hmem).1 (lt_irrefl _)
  unfold ReactInv
  dsimp only
  refine ⟨?_, ?_, ?_⟩
  · intro mid' m' hm'
    rw [lookupA_updateA] at hm'
    by_cases he : mid = mid'
    · rw [if_pos he] at hm'
      subst he
      rw [hgm] at hm'
      have hv := Option.some.inj hm'
      rw [← hv]
      exact h.1 mid m hgm
    · rw [if_neg he] at hm'
      exact h.1 mid' m' hm'
  · intro mid' m' hm'
    rw [lookupA_updateA] at hm'
    by_cases he : mid = mid'
    · rw [if_pos he] at hm'
      subst he
      rw [hgm] at hm'
      have hv := Option.some.inj hm'
      rw [← hv]
      show (m.reactions ++ [s.next_rid]).Nodup
      rw [List.nodup_append]
      exact ⟨h.2.1 mid m hgm, List.nodup_singleton _,
        fun x hx hxa => hfresh (List.mem_singleton.mp hxa ▸ hx)⟩
    · rw [if_neg he] at hm'
      exact h.2.1 mid' m' hm'
  · intro mid' m' hm' rid hrid
    rw [lookupA_updateA] at hm'
    by_cases he : mid = mid'
    · rw [if_pos he] at hm'
      subst he
      rw [hgm] at hm'
      have hv := Option.some.inj hm'
      rw [← hv] at hrid
      have hrid2 : rid ∈ m.reactions ++ [s.next_rid] := hrid
      rcases List.mem_append.mp hrid2 with hin | hnew
      · obtain ⟨hlt, hb⟩ := h.2.2 mid m hgm rid hin
        refine ⟨Nat.lt_succ_of_lt hlt, ?_⟩
        intro r hrr
        rw [lookupA_insertA_ne _ _ _ _ (Nat.ne_of_gt hlt)] at hrr
        exact hb r hrr
      · rw [List.mem_singleton.mp hnew]
        refine ⟨Nat.lt_succ_self _, ?_⟩
        intro r hrr
        rw [lookupA_insertA_self] at hrr
        have hv2 := Option.some.inj hrr
        rw [← hv2]
        exact ⟨hcnt, rfl⟩
    · rw [if_neg he] at hm'
      obtain ⟨hlt, hb⟩ := h.2.2 mid' m' hm' rid hrid
      refine ⟨Nat.lt_succ_of_lt hlt, ?_⟩
      intro r hrr
      rw [lookupA_insertA_ne _ _ _ _ (Nat.ne_of_gt hlt)] at hrr
      exact hb r hrr

/-- The id part of the invariant survives any rewrite of one message's
reaction list. -/
theorem reactInv_ids_updateA_reactions (s : RegState)
    (h1 : ∀ mid m, lookupA mid s.message_heap = some m → m.id = mid)
    (k : Nat) (f : List Nat → List Nat) :
    ∀ mid m, lookupA mid
        (updateA k (fun m0 => { m0 with reactions := f m0.reactions }) s.message_heap) =
        some m → m.id = mid := by
  intro mid m hm
  rw [lookupA_updateA] at hm
  by_cases he : k = mid
  · rw [if_pos he] at hm
    cases hl : lookupA mid s.message_heap with
    | none => rw [hl] at hm; cases hm
    | some m0 =>
        rw [hl] at hm
        have hv := Option.some.inj hm
        rw [← hv]
        exact h1 mid m0 hl
  · rw [if_neg he] at hm
    exact h1 mid m hm

/-- The duplicate-freedom part survives any list rewrite that preserves
duplicate-freedom. -/
theorem reactInv_nodup_updateA_reactions (s : RegState)
    (h2 : ∀ mid m, lookupA mid s.message_heap = some m → m.reactions.Nodup)
    (k : Nat) (f : List Nat → List Nat) (hf : ∀ l : List Nat, l.Nodup → (f l).Nodup) :
    ∀ mid m, lookupA mid
        (updateA k (fun m0 => { m0 with reactions := f m0.reactions }) s.message_heap) =
        some m → m.reactions.Nodup := by
  intro mid m hm
  rw [lookupA_updateA] at hm
  by_cases he : k = mid
  · rw [if_pos he] at hm
    cases hl : lookupA mid s.message_heap with
    | none => rw [hl] at hm; cases hm
    | some m0 =>
        rw [hl] at hm
        have hv := Option.some.inj hm
        rw [← hv]
        exact hf _ (h2 mid m0 hl)
  · rw [if_neg he] at hm
    exact h2 mid m hm

/-- Erasing a found reaction from its message's list while rewriting its
heap entry arbitrarily preserves the invariant: the erased key drops out
of all lists it could legally sit in. -/
theorem reactInv_erase_update (s : RegState) (h : ReactInv s) (mid : Nat) (m : Message)
    (hgm : lookupA mid s.message_heap = some m) (rid0 : Nat) (hmem0 : rid0 ∈ m.reactions)
    (r0 : Reaction) (hr0 : lookupA rid0 s.reaction_heap = some r0) (f : Reaction → Reaction) :
    ReactInv { s with
      message_heap :=
        updateA mid (fun m0 => { m0 with reactions := m0.reactions.erase rid0 })
          s.message_heap
      reaction_heap := updateA rid0 f s.reaction_heap } := by
  unfold ReactInv
  dsimp only
  refine ⟨reactInv_ids_updateA_reactions s h.1 mid (fun l => l.erase rid0),
    reactInv_nodup_updateA_reactions s h.2.1 mid (fun l => l.erase rid0)
      (fun l hl => hl.erase _), ?_⟩
  intro mid' m' hm' rid hrid
  rw [lookupA_updateA] at hm'
  by_cases he : mid = mid'
  · rw [if_pos he] at hm'
    subst he
    cases hl : lookupA mid s.message_heap with
    | none => rw [hl] at hm'; cases hm'
    | some m0 =>
        rw [hl] at hm'
        have hm0 : m0 = m := by
          rw [hgm] at hl
          exact (Option.some.inj hl).symm
        subst hm0
        have hv := Option.some.inj hm'
        rw [← hv] at hrid
        have hrid2 : rid ∈ m0.reactions.erase rid0 := hrid
        by_cases hrr0 : rid = rid0
        · subst hrr0
          exact absurd rfl ((List.Nodup.mem_erase_iff (h.2.1 mid m0 hgm)).mp hrid2).1
        · have hin : rid ∈ m0.reactions := (List.mem_erase_of_ne hrr0).mp hrid2
          obtain ⟨hlt, hb⟩ := h.2.2 mid m0 hgm rid hin
          refine ⟨hlt, ?_⟩
          intro r hrr
          rw [lookupA_updateA_ne _ _ _ _ (Ne.symm hrr0)] at hrr
          exact hb r hrr
  · rw [if_neg he] at hm'
    obtain ⟨hlt, hb⟩ := h.2.2 mid' m' hm' rid hrid
    refine ⟨hlt, ?_⟩
    intro r hrr
    by_cases hrr0 : rid = rid0
    · subst hrr0
      have hb2 := (h.2.2 mid m hgm rid hmem0).2 r0 hr0
      have hb3 := hb r0 hr0
      exact absurd (hb2.2.symm.trans hb3.2) he
    · rw [lookupA_updateA_ne _ _ _ _ (Ne.symm hrr0)] at hrr
      exact hb r hrr

/-- A hit of the bounded message-cache lookup is backed by the heap. -/
theorem get_message_by_id_some (s : RegState) (mid : Nat) (m : Message)
    (h : (get_message_by_id s mid).1 = some m) :
    lookupA mid s.message_heap = some m := by
  unfold get_message_by_id at h
  by_cases hc : mid ∈ s._message_cache
  · rw [if_pos hc] at h
    split at h
    next m0 heq =>
      exact heq.trans (congrArg some (Option.some.inj h))
    next heq => simp at h
  · rw [if_neg hc] at h
    simp at h

theorem increment_reaction_count_reactInv (s : RegState) (mid : Nat) (e : Emoji)
    (h : ReactInv s) : ReactInv (increment_reaction_count s mid e).2 := by
  unfold increment_reaction_count
  split
  next heq => exact h
  next m heq =>
    split
    next rid0 hf =>
      exact reactInv_updateA_count s h rid0 (fun c => c + 1)
        (fun c hc => by show (1 : Int) ≤ c + 1; omega)
    next hf =>
      exact reactInv_append_fresh s h mid m (cachedMessage_some s mid m heq).2 e 1 le_rfl

theorem decrement_reaction_count_reactInv (s : RegState) (mid : Nat) (e : Emoji)
    (h : ReactInv s) : ReactInv (decrement_reaction_count s mid e).2 := by
  unfold decrement_reaction_count
  split
  next heq => exact h
  next m heq =>
    split
    next hf => exact h
    next rid0 hf =>
      dsimp only
      obtain ⟨r0, hr0, _⟩ := findMatchingRid_lookup s.reaction_heap e m.reactions rid0 hf
      have hgm := (cachedMessage_some s mid m heq).2
      have hmem0 := findMatchingRid_mem s.reaction_heap e m.reactions rid0 hf
      split
      next hrem =>
        exact reactInv_erase_update s h mid m hgm rid0 hmem0 r0 hr0
          (fun r => { r with count := r.count - 1 })
      next hrem =>
        refine ⟨h.1, h.2.1, ?_⟩
        intro mid' m' hm' rid hrid
        obtain ⟨hlt, hb⟩ := h.2.2 mid' m' hm' rid hrid
        refine ⟨hlt, ?_⟩
        intro r hrr
        by_cases hrr0 : rid = rid0
        · subst hrr0
          have hlook : lookupA rid
              (updateA rid (fun r => { r with count := r.count - 1 }) s.reaction_heap) =
              some { r0 with count := r0.count - 1 } := by
            rw [lookupA_updateA_self, hr0]
            rfl
          rw [hlook] at hrr
          have hv := Option.some.inj hrr
          obtain ⟨hc0, hmsg0⟩ := hb r0 hr0
          have hne0 : ¬ r0.count - 1 = 0 := by
            intro hc
            apply hrem
            rw [hlook]
            simp only [beq_iff_eq]
            exact hc
          rw [← hv]
          refine ⟨?_, hmsg0⟩
          show (1 : Int) ≤ r0.count - 1
          omega
        · rw [lookupA_updateA_ne _ _ _ _ (Ne.symm hrr0)] at hrr
          exact hb r hrr

theorem delete_reaction_reactInv (s : RegState) (mid : Nat) (e : Emoji)
    (h : ReactInv s) : ReactInv (delete_reaction s mid e) := by
  unfold delete_reaction
  split
  next heq => exact h
  next m heq =>
    split
    next hf => exact h
    next rid0 hf =>
      obtain ⟨r0, hr0, _⟩ := findMatchingRid_lookup s.reaction_heap e m.reactions rid0 hf
      exact reactInv_erase_update s h mid m (cachedMessage_some s mid m heq).2 rid0
        (findMatchingRid_mem s.reaction_heap e m.reactions rid0 hf) r0 hr0
        (fun r => { r with count := 0 })

theorem delete_all_reactions_reactInv (s : RegState) (mid : Nat)
    (h : ReactInv s) : ReactInv (delete_all_reactions s mid) := by
  unfold delete_all_reactions
  split
  next heq => exact h
  next m heq =>
    have hgm := (cachedMessage_some s mid m heq).2
    unfold ReactInv
    dsimp only
    refine ⟨reactInv_ids_updateA_reactions s h.1 mid (fun _ => []),
      reactInv_nodup_updateA_reactions s h.2.1 mid (fun _ => [])
        (fun _ _ => List.nodup_nil), ?_⟩
    intro mid' m' hm' rid hrid
    rw [lookupA_updateA] at hm'
    by_cases he : mid = mid'
    · rw [if_pos he] at hm'
      subst he
      cases hl : lookupA mid s.message_heap with
      | none => rw [hl] at hm'; cases hm'
      | some m0 =>
          rw [hl] at hm'
          have hv := Option.some.inj hm'
          rw [← hv] at hrid
          exact absurd hrid (List.not_mem_nil rid)
    · rw [if_neg he] at hm'
      obtain ⟨hlt, hb⟩ := h.2.2 mid' m' hm' rid hrid
      refine ⟨hlt, ?_⟩
      intro r hrr
      have hnotin : rid ∉ m.reactions := by
        intro hin
        have hrr2 := hrr
        rw [lookupA_foldl_zero, if_pos hin] at hrr2
        cases hl2 : lookupA rid s.reaction_heap with
        | none => rw [hl2] at hrr2; simp at hrr2
        | some r1 =>
            have hb2 := (h.2.2 mid m hgm rid hin).2 r1 hl2
            have hb3 := hb r1 hl2
            exact he (hb2.2.symm.trans hb3.2)
      rw [lookupA_foldl_zero, if_neg hnotin] at hrr
      exact hb r hrr

theorem parse_message_reactInv (s : RegState) (p : MessagePayload) (h : ReactInv s) :
    ReactInv (parse_message s p).2 := by
  obtain ⟨chh, mh, mc, dm, hst, _, _, hmh⟩ := parse_message_frame s p
  rw [hst]
  unfold ReactInv
  dsimp only
  rcases hmh with hmh | hmh
  · subst hmh
    refine ⟨?_, ?_, ?_⟩
    · intro mid m hm
      rcases lookupA_insertA_cases mid p.id _ s.message_heap m hm with ⟨h1, h2⟩ | ⟨h1, h2⟩
      · rw [h2, h1]
      · exact h.1 mid m h2
    · intro mid m hm
      rcases lookupA_insertA_cases mid p.id _ s.message_heap m hm with ⟨h1, h2⟩ | ⟨h1, h2⟩
      · rw [h2]
        exact List.nodup_nil
      · exact h.2.1 mid m h2
    · intro mid m hm rid hrid
      rcases lookupA_insertA_cases mid p.id _ s.message_heap m hm with ⟨h1, h2⟩ | ⟨h1, h2⟩
      · rw [h2] at hrid
        exact absurd hrid (List.not_mem_nil rid)
      · exact h.2.2 mid m h2 rid hrid
  · subst hmh
    exact h

theorem parse_reaction_reactInv (s : RegState) (p : ReactionPayload) (hpos : 1 ≤ p.count)
    (h : ReactInv s) : ReactInv (parse_reaction s p).2 := by
  unfold parse_reaction
  dsimp only
  obtain ⟨mc1, h1, hlen1⟩ := get_message_by_id_frame s p.message_id
  obtain ⟨gs2, es2, eh2, h2⟩ :=
    parse_emoji_frame ((get_message_by_id s p.message_id).2) p.emoji none
  have hinv2 :
      ReactInv ((parse_emoji ((get_message_by_id s p.message_id).2) p.emoji none).2) := by
    refine reactInv_of_eq s _ ?_ ?_ ?_ h <;> rw [h2, h1]
  cases hg : (get_message_by_id s p.message_id).1 with
  | none => exact hinv2
  | some m =>
      dsimp only
      have hgm : lookupA p.message_id s.message_heap = some m :=
        get_message_by_id_some s p.message_id m hg
      split
      next rid0 hf =>
        exact reactInv_updateA_count _ hinv2 rid0 (fun _ => p.count) (fun c hc => hpos)
      next hf =>
        have hid : m.id = p.message_id := h.1 p.message_id m hgm
        have hgm2 : lookupA m.id
            ((parse_emoji ((get_message_by_id s p.message_id).2) p.emoji none).2).message_heap =
            some m := by
          rw [h2, h1]
          show lookupA m.id s.message_heap = some m
          rw [hid]
          exact hgm
        exact reactInv_append_fresh _ hinv2 m.id m hgm2 _ p.count hpos

/-- The payload restriction of the amended C6 claim: reaction ingestion
carries positive counts (real gateway payloads report at least one
reacting user). -/
def posCountOp : Op → Prop
  | .opParseReaction p => 1 ≤ p.count
  | _ => True

theorem step_reactInv (s : RegState) (op : Op) (hpos : posCountOp op) (h : ReactInv s) :
    ReactInv (step s op) := by
  cases op with
  | opParseBotUser p =>
      obtain ⟨u, bc, hst⟩ := parse_bot_user_frame s p
      simp only [step]
      rw [hst]
      exact reactInv_of_eq s _ rfl rfl rfl h
  | opParseChannel p g =>
      obtain ⟨chh, gc, gs, dm, us, u, bc, hst, _⟩ := parse_channel_frame s p g
      simp only [step]
      rw [hst]
      exact reactInv_of_eq s _ rfl rfl rfl h
  | opParseGuild p =>
      obtain ⟨gs, hst⟩ := parse_guild_frame s p
      simp only [step]
      rw [hst]
      exact reactInv_of_eq s _ rfl rfl rfl h
  | opParseMember p gid =>
      obtain ⟨gs, hst⟩ := parse_member_frame s p gid
      simp only [step]
      rw [hst]
      exact reactInv_of_eq s _ rfl rfl rfl h
  | opParseMessage p =>
      simp only [step]
      exact parse_message_reactInv s p h
  | opParseReaction p =>
      simp only [step]
      exact parse_reaction_reactInv s p hpos h
  | opParseRole rid gid =>
      obtain ⟨gs, hst⟩ := parse_role_frame s rid gid
      simp only [step]
      rw [hst]
      exact reactInv_of_eq s _ rfl rfl rfl h
  | opParseUser p =>
      obtain ⟨us, u, bc, hst⟩ := parse_user_frame s p
      simp only [step]
      rw [hst]
      exact reactInv_of_eq s _ rfl rfl rfl h
  | opIncrementReaction mid e =>
      simp only [step]
      exact increment_reaction_count_reactInv s mid e h
  | opDecrementReaction mid e =>
      simp only [step]
      exact decrement_reaction_count_reactInv s mid e h
  | opDeleteChannel cid =>
      obtain ⟨gs, gc, dm, hst, _⟩ := delete_channel_frame s cid
      simp only [step]
      rw [hst]
      exact reactInv_of_eq s _ rfl rfl rfl h
  | opDeleteEmoji eid egid =>
      obtain ⟨es, gs, hst⟩ := delete_emoji_frame s eid egid
      simp only [step]
      rw [hst]
      exact reactInv_of_eq s _ rfl rfl rfl h
  | opDeleteGuild gid =>
      obtain ⟨gs, hst⟩ := delete_guild_frame s gid
      simp only [step]
      rw [hst]
      exact reactInv_of_eq s _ rfl rfl rfl h
  | opDeleteMember uid gid =>
      obtain ⟨gs, hst⟩ := delete_member_frame s uid gid
      simp only [step]
      rw [hst]
      exact reactInv_of_eq s _ rfl rfl rfl h
  | opDeleteMessage mid =>
      obtain ⟨mc, hst, _⟩ := delete_message_frame s mid
      simp only [step]
      rw [hst]
      exact reactInv_of_eq s _ rfl rfl rfl h
  | opDeleteReaction mid e =>
      simp only [step]
      exact delete_reaction_reactInv s mid e h
  | opDeleteAllReactions mid =>
      simp only [step]
      exact delete_all_reactions_reactInv s mid h
  | opDeleteRole rid rgid =>
      obtain ⟨gs, hst⟩ := delete_role_frame s rid rgid
      simp only [step]
      rw [hst]
      exact reactInv_of_eq s _ rfl rfl rfl h
  | opSetRolesForMember roles uid gid =>
      obtain ⟨gs, hst⟩ := set_roles_for_member_frame s roles uid gid
      simp only [step]
      rw [hst]
      exact reactInv_of_eq s _ rfl rfl rfl h
  | opSetGuildUnavailability gid b =>
      obtain ⟨gs, hst⟩ := set_guild_unavailability_frame s gid b
      simp only [step]
      rw [hst]
      exact reactInv_of_eq s _ rfl rfl rfl h

theorem runOps_reactInv (ops : List Op) : ∀ s : RegState, (∀ op ∈ ops, posCountOp op) →
    ReactInv s → ReactInv (runOps s ops) := by
  induction ops with
  | nil => intro s _ h; exact h
  | cons op rest ih =>
      intro s hpos h
      exact ih (step s op) (fun o ho => hpos o (List.mem_cons_of_mem _ ho))
        (step_reactInv s op (hpos op (List.mem_cons_self _ _)) h)

/-- `decrement_reaction_count` either leaves the state alone or
decrements a found reaction, erasing it from the list exactly when the
decremented count is zero. -/
theorem decrement_reaction_count_cases (s : RegState) (mid : Nat) (e : Emoji) :
    (decrement_reaction_count s mid e).2 = s ∨
    ∃ m rid0, cachedMessage s mid = some m ∧
      findMatchingRid s.reaction_heap e m.reactions = some rid0 ∧
      ((∀ r, lookupA rid0
            (updateA rid0 (fun r => { r with count := r.count - 1 }) s.reaction_heap) =
            some r → r.count = 0) ∧
        (decrement_reaction_count s mid e).2 = { s with
          reaction_heap :=
            updateA rid0 (fun r => { r with count := r.count - 1 }) s.reaction_heap
          message_heap :=
            updateA mid (fun m0 => { m0 with reactions := m0.reactions.erase rid0 })
              s.message_heap } ∨
       (decrement_reaction_count s mid e).2 = { s with
          reaction_heap :=
            updateA rid0 (fun r => { r with count := r.count - 1 }) s.reaction_heap }) := by
  unfold decrement_reaction_count
  split
  next heq => exact Or.inl rfl
  next m heq =>
    split
    next hf => exact Or.inl rfl
    next rid0 hf =>
      dsimp only
      refine Or.inr ⟨m, rid0, heq, hf, ?_⟩
      split
      next hrem =>
        refine Or.inl ⟨?_, rfl⟩
        intro r hrr
        rw [hrr] at hrem
        simp only [beq_iff_eq] at hrem
        exact hrem
      next hrem => exact Or.inr rfl

/-- `delete_reaction` either leaves the state alone or erases a found
reaction from the list, zeroing its heap entry. -/
theorem delete_reaction_cases (s : RegState) (mid : Nat) (e : Emoji) :
    delete_reaction s mid e = s ∨
    ∃ m rid0, cachedMessage s mid = some m ∧
      findMatchingRid s.reaction_heap e m.reactions = some rid0 ∧
      delete_reaction s mid e = { s with
        message_heap :=
          updateA mid (fun m0 => { m0 with reactions := m0.reactions.erase rid0 })
            s.message_heap
        reaction_heap := updateA rid0 (fun r => { r with count := 0 }) s.reaction_heap } := by
  unfold delete_reaction
  split
  next heq => exact Or.inl rfl
  next m heq =>
    split
    next hf => exact Or.inl rfl
    next rid0 hf => exact Or.inr ⟨m, rid0, heq, hf, rfl⟩

/-- `delete_all_reactions` either leaves the state alone or clears the
cached message's list, zeroing every listed heap entry. -/
theorem delete_all_reactions_cases (s : RegState) (mid : Nat) :
    delete_all_reactions s mid = s ∨
    ∃ m, cachedMessage s mid = some m ∧
      delete_all_reactions s mid = { s with
        reaction_heap := m.reactions.foldl
          (fun h0 rid0 => updateA rid0 (fun r => { r with count := 0 }) h0) s.reaction_heap
        message_heap :=
          updateA mid (fun m0 => { m0 with reactions := [] }) s.message_heap } := by
  unfold delete_all_reactions
  split
  next heq => exact Or.inl rfl
  next m heq => exact Or.inr ⟨m, heq, rfl⟩

/-- A reaction listed by no heap message keeps its heap entry across any
single operation: the reaction operations only touch keys found in some
message's list or freshly allocated ones. -/
theorem step_untouched_reaction (s : RegState) (op : Op) (rid : Nat)
    (hlt : rid < s.next_rid)
    (hno : ∀ mid m, lookupA mid s.message_heap = some m → rid ∉ m.reactions) :
    lookupA rid (step s op).reaction_heap = lookupA rid s.reaction_heap := by
  cases op with
  | opParseBotUser p =>
      obtain ⟨u, bc, hst⟩ := parse_bot_user_frame s p
      simp only [step]
      rw [hst]
  | opParseChannel p g =>
      obtain ⟨chh, gc, gs, dm, us, u, bc, hst, _⟩ := parse_channel_frame s p g
      simp only [step]
      rw [hst]
  | opParseGuild p =>
      obtain ⟨gs, hst⟩ := parse_guild_frame s p
      simp only [step]
      rw [hst]
  | opParseMember p gid =>
      obtain ⟨gs, hst⟩ := parse_member_frame s p gid
      simp only [step]
      rw [hst]
  | opParseMessage p =>
      obtain ⟨chh, mh, mc, dm, hst, _, _, _⟩ := parse_message_frame s p
      simp only [step]
      rw [hst]
  | opParseReaction p =>
      simp only [step]
      unfold parse_reaction
      dsimp only
      obtain ⟨mc1, h1, _⟩ := get_message_by_id_frame s p.message_id
      obtain ⟨gs2, es2, eh2, h2⟩ :=
        parse_emoji_frame ((get_message_by_id s p.message_id).2) p.emoji none
      have hrh :
          ((parse_emoji ((get_message_by_id s p.message_id).2) p.emoji none).2).reaction_heap =
          s.reaction_heap := by
        rw [h2, h1]
      have hnr :
          ((parse_emoji ((get_message_by_id s p.message_id).2) p.emoji none).2).next_rid =
          s.next_rid := by
        rw [h2, h1]
      cases hg : (get_message_by_id s p.message_id).1 with
      | none =>
          dsimp only
          rw [hrh]
      | some m =>
          dsimp only
          have hnom : rid ∉ m.reactions :=
            hno p.message_id m (get_message_by_id_some s p.message_id m hg)
          split
          next rid0 hf =>
            dsimp only
            rw [hrh]
            exact lookupA_updateA_ne rid rid0 _ _
              (fun hc => hnom (hc ▸ findMatchingRid_mem _ _ _ _ hf))
          next hf =>
            dsimp only
            rw [hrh, hnr]
            exact lookupA_insertA_ne rid s.next_rid _ _ (Nat.ne_of_gt hlt)
  | opParseRole rid0 gid =>
      obtain ⟨gs, hst⟩ := parse_role_frame s rid0 gid
      simp only [step]
      rw [hst]
  | opParseUser p =>
      obtain ⟨us, u, bc, hst⟩ := parse_user_frame s p
      simp only [step]
      rw [hst]
  | opIncrementReaction mid e =>
      simp only [step]
      unfold increment_reaction_count
      split
      next heq => rfl
      next m heq =>
        have hnom : rid ∉ m.reactions := hno mid m (cachedMessage_some s mid m heq).2
        split
        next rid0 hf =>
          dsimp only
          exact lookupA_updateA_ne rid rid0 _ _
            (fun hc => hnom (hc ▸ findMatchingRid_mem _ _ _ _ hf))
        next hf =>
          dsimp only
          exact lookupA_insertA_ne rid s.next_rid _ _ (Nat.ne_of_gt hlt)
  | opDecrementReaction mid e =>
      simp only [step]
      unfold decrement_reaction_count
      split
      next heq => rfl
      next m heq =>
        have hnom : rid ∉ m.reactions := hno mid m (cachedMessage_some s mid m heq).2
        split
        next hf => rfl
        next rid0 hf =>
          dsimp only
          exact lookupA_updateA_ne rid rid0 _ _
            (fun hc => hnom (hc ▸ findMatchingRid_mem _ _ _ _ hf))
  | opDeleteChannel cid =>
      obtain ⟨gs, gc, dm, hst, _⟩ := delete_channel_frame s cid
      simp only [step]
      rw [hst]
  | opDeleteEmoji eid egid =>
      obtain ⟨es, gs, hst⟩ := delete_emoji_frame s eid egid
      simp only [step]
      rw [hst]
  | opDeleteGuild gid =>
      obtain ⟨gs, hst⟩ := delete_guild_frame s gid
      simp only [step]
      rw [hst]
  | opDeleteMember uid gid =>
      obtain ⟨gs, hst⟩ := delete_member_frame s uid gid
      simp only [step]
      rw [hst]
  | opDeleteMessage mid =>
      obtain ⟨mc, hst, _⟩ := delete_message_frame s mid
      simp only [step]
      rw [hst]
  | opDeleteReaction mid e =>
      simp only [step]
      unfold delete_reaction
      split
      next heq => rfl
      next m heq =>
        have hnom : rid ∉ m.reactions := hno mid m (cachedMessage_some s mid m heq).2
        split
        next hf => rfl
        next rid0 hf =>
          dsimp only
          exact lookupA_updateA_ne rid rid0 _ _
            (fun hc => hnom (hc ▸ findMatchingRid_mem _ _ _ _ hf))
  | opDeleteAllReactions mid =>
      simp only [step]
      unfold delete_all_reactions
      split
      next heq => rfl
      next m heq =>
        have hnom : rid ∉ m.reactions := hno mid m (cachedMessage_some s mid m heq).2
        dsimp only
        rw [lookupA_foldl_zero, if_neg hnom]
  | opDeleteRole rid0 rgid =>
      obtain ⟨gs, hst⟩ := delete_role_frame s rid0 rgid
      simp only [step]
      rw [hst]
  | opSetRolesForMember roles uid gid =>
      obtain ⟨gs, hst⟩ := set_roles_for_member_frame s roles uid gid
      simp only [step]
      rw [hst]
  | opSetGuildUnavailability gid b =>
      obtain ⟨gs, hst⟩ := set_guild_unavailability_frame s gid b
      simp only [step]
      rw [hst]

/-- The operation sequence reaching the witness state for the
reaction-count invariant: cache DM channel 5, cache message 1 in it,
then add one reaction. -/
def c6Ops : List Op :=
  [Op.opParseChannel dmPayload5 none, Op.opParseMessage { id := 1, channel_id := 5 },
   Op.opIncrementReaction 1 emoji9]

/-- C6 (counterexample): `parse_reaction` copies the payload count into
the reaction object unchecked (lines 333, 340 and 345: the freshly
built reaction carries `int(reaction_payload["count"])` and an existing
reaction's count is overwritten with it), so one reaction payload with
count `-1` on a cached message reaches a
registry state — reachable from the initial state by the listed
operation sequence — whose message 1 lists reaction key 0 while that
reaction's heap entry carries count `-1`: a negative count held in a
message's reaction list. -/
theorem negative_reaction_count_counterexample :
    ((lookupA 1 (parse_reaction msgState
        { message_id := 1, count := -1, emoji := { id := some 9, name := 4 } }).2.message_heap).map
      Message.reactions = some [0]) ∧
    ((lookupA 0 (parse_reaction msgState
        { message_id := 1, count := -1, emoji := { id := some 9, name := 4 } }).2.reaction_heap).map
      Reaction.count = some (-1)) ∧
    (parse_reaction msgState
        { message_id := 1, count := -1, emoji := { id := some 9, name := 4 } }).2 =
      runOps (initState 2 2)
        [Op.opParseChannel dmPayload5 none, Op.opParseMessage { id := 1, channel_id := 5 },
         Op.opParseReaction { message_id := 1, count := -1, emoji := { id := some 9, name := 4 } }] :=
  ⟨rfl, rfl, rfl⟩

/-- C6 (amended): with reaction ingestion restricted to positive payload
counts, in every registry state reachable by any operation sequence the
count of every reaction held in any message's reaction list is at least
1 — in particular never negative (without the restriction the property
fails, `parse_reaction` copies any payload count unchecked); a reaction
that `decrement_reaction_count` removes from its message's list has
count exactly 0, and one removed by `delete_reaction` or
`delete_all_reactions` likewise; and a reaction held in no message's
list is not mutated by any later operation. -/
theorem reaction_count_nonnegative :
    (∀ mc dc ops, (∀ op ∈ ops, posCountOp op) →
       ∀ mid m rid r,
         lookupA mid (runOps (initState mc dc) ops).message_heap = some m →
         rid ∈ m.reactions →
         lookupA rid (runOps (initState mc dc) ops).reaction_heap = some r →
         1 ≤ r.count) ∧
    (∀ s mid e m m' rid r,
       lookupA mid s.message_heap = some m →
       lookupA mid (decrement_reaction_count s mid e).2.message_heap = some m' →
       rid ∈ m.reactions → rid ∉ m'.reactions →
       lookupA rid (decrement_reaction_count s mid e).2.reaction_heap = some r →
       r.count = 0) ∧
    (∀ s mid e m m' rid r,
       lookupA mid s.message_heap = some m →
       lookupA mid (delete_reaction s mid e).message_heap = some m' →
       rid ∈ m.reactions → rid ∉ m'.reactions →
       lookupA rid (delete_reaction s mid e).reaction_heap = some r →
       r.count = 0) ∧
    (∀ s mid m m' rid r,
       lookupA mid s.message_heap = some m →
       lookupA mid (delete_all_reactions s mid).message_heap = some m' →
       rid ∈ m.reactions → rid ∉ m'.reactions →
       lookupA rid (delete_all_reactions s mid).reaction_heap = some r →
       r.count = 0) ∧
    (∀ s op rid, rid < s.next_rid →
       (∀ mid m, lookupA mid s.message_heap = some m → rid ∉ m.reactions) →
       lookupA rid (step s op).reaction_heap = lookupA rid s.reaction_heap) := by
  refine ⟨?_, ?_, ?_, ?_, ?_⟩
  · intro mc dc ops hpos mid m rid r hm hrid hr
    exact (((runOps_reactInv ops (initState mc dc) hpos (reactInv_init mc dc)).2.2
      mid m hm rid hrid).2 r hr).1
  · intro s mid e m m' rid r hm hm' hin hout hr
    rcases decrement_reaction_count_cases s mid e with hcase | ⟨m0, rid0, hcm, hf, hcase⟩
    · rw [hcase, hm] at hm'
      exact absurd (Option.some.inj hm' ▸ hin) hout
    · have hm0 : m0 = m := by
        have hx := (cachedMessage_some s mid m0 hcm).2
        rw [hm] at hx
        exact (Option.some.inj hx).symm
      subst hm0
      rcases hcase with ⟨hzero, hst⟩ | hst
      · rw [hst] at hm' hr
        dsimp only at hm' hr
        rw [lookupA_updateA_self, hm] at hm'
        have hv := Option.some.inj hm'
        rw [← hv] at hout
        have hout2 : rid ∉ m0.reactions.erase rid0 := hout
        have hrr0 : rid = rid0 := by
          by_contra hne
          exact hout2 ((List.mem_erase_of_ne hne).mpr hin)
        subst hrr0
        exact hzero r hr
      · rw [hst] at hm'
        dsimp only at hm'
        rw [hm] at hm'
        exact absurd (Option.some.inj hm' ▸ hin) hout
  · intro s mid e m m' rid r hm hm' hin hout hr
    rcases delete_reaction_cases s mid e with hcase | ⟨m0, rid0, hcm, hf, hcase⟩
    · rw [hcase, hm] at hm'
      exact absurd (Option.some.inj hm' ▸ hin) hout
    · have hm0 : m0 = m := by
        have hx := (cachedMessage_some s mid m0 hcm).2
        rw [hm] at hx
        exact (Option.some.inj hx).symm
      subst hm0
      rw [hcase] at hm' hr
      dsimp only at hm' hr
      rw [lookupA_updateA_self, hm] at hm'
      have hv := Option.some.inj hm'
      rw [← hv] at hout
      have hout2 : rid ∉ m0.reactions.erase rid0 := hout
      have hrr0 : rid = rid0 := by
        by_contra hne
        exact hout2 ((List.mem_erase_of_ne hne).mpr hin)
      subst hrr0
      rw [lookupA_updateA_self] at hr
      cases hl : lookupA rid s.reaction_heap with
      | none => rw [hl] at hr; simp at hr
      | some r1 =>
          rw [hl] at hr
          have hv2 := Option.some.inj hr
          rw [← hv2]
  · intro s mid m m' rid r hm hm' hin hout hr
    rcases delete_all_reactions_cases s mid with hcase | ⟨m0, hcm, hcase⟩
    · rw [hcase, hm] at hm'
      exact absurd (Option.some.inj hm' ▸ hin) hout
    · have hm0 : m0 = m := by
        have hx := (cachedMessage_some s mid m0 hcm).2
        rw [hm] at hx
        exact (Option.some.inj hx).symm
      subst hm0
      rw [hcase] at hr
      dsimp only at hr
      rw [lookupA_foldl_zero, if_pos hin] at hr
      cases hl : lookupA rid s.reaction_heap with
      | none => rw [hl] at hr; simp at hr
      | some r1 =>
          rw [hl] at hr
          have hv2 := Option.some.inj hr
          rw [← hv2]
  · intro s op rid hlt hno
    exact step_untouched_reaction s op rid hlt hno

/-- Witness for C6 (amended): the positive-count reachability conjunct
applied to the concrete three-operation sequence `c6Ops`, whose final
state caches message 1 listing reaction key 0 with count 1. -/
theorem reaction_count_nonnegative_witness :
    1 ≤ ({ count := 1, emoji := emoji9, message_id := 1 } : Reaction).count :=
  reaction_count_nonnegative.1 2 2 c6Ops
    (by
      intro op hop
      simp only [c6Ops, List.mem_cons, List.not_mem_nil, or_false] at hop
      rcases hop with rfl | rfl | rfl <;> trivial)
    1 { id := 1, channel_id := 5, reactions := [0] } 0
    { count := 1, emoji := emoji9, message_id := 1 } rfl (by decide) rfl

/-- Witness for C1 (amended): from the empty registry (which satisfies
the invariant) a successful DM parse preserves the invariant. -/
theorem parse_channel_two_view_atomicity_witness :
    ChannelViewsWF (parse_channel (initState 2 2) dmPayload5 none).2 := by
  have hwf : ChannelViewsWF (initState 2 2) := by
    refine ⟨?_, ?_, ?_⟩ <;> intro c hc <;> cases hc
  exact (parse_channel_two_view_atomicity (initState 2 2) dmPayload5 none hwf).1 5 rfl

end Hikari
